import Mathlib

/-! SPI master driver (libraries/SPI/src/SPI.cpp)

A shallow embedding of `SPIClass` from `SPI.cpp`: the reference-counted
lifecycle (`begin` / `end`), the two configuration operations
(`setClockDivider`, `setDataMode`) and the interrupt participation tracker
(`usingInterrupt` / `notUsingInterrupt`).

The header `SPI.h` (register offsets, bit constants, member types) and the
board's pin table are not part of the translated source, so every constant,
every member width and the pin table are fields of `Config`; nothing is
assumed about them except where a theorem says so in a hypothesis.

Machine words are natural numbers.  A store into a `w`-bit location keeps the
value modulo `2 ^ w`; the C operator `~` on a `w`-bit location is
`complement w`.
-/

namespace SPI

/-! ## Machine words -/

/-- Value kept by a store into a `w`-bit location. -/
def trunc (w x : Nat) : Nat := x % 2 ^ w

/-- The C operator `~x` read at width `w`: every one of the low `w` bits of
`x` flipped. -/
def complement (w x : Nat) : Nat := 2 ^ w - (x % 2 ^ w + 1)

/-! ## Constants, member widths and the pin table -/

/-- One entry of `g_APinDescription`, restricted to the two fields that
`SPI.cpp` reads (`ulGPIOPort`, `ulGPIOId`). -/
structure PinDescription where
  ulGPIOPort : Nat
  ulGPIOId : Nat
deriving DecidableEq, Repr

/-- Everything `SPI.cpp` takes from headers and from the constructor.

* `regBits`: width of a memory-mapped register (`SPI_M_REG_VAL`, `MMIO_REG_VAL`);
* `cntBits`: width of the member `initialized`;
* `modeBits`: width of the member `interruptMode`;
* `maskBits`: width of one element of `interruptMask`;
* the upper-case fields are the macros of the same name;
* `g_APinDescription` is the board's pin table;
* `enable_val`, `disable_val` are the per-instance clock-gate masks;
* `SPI_TRANSACTION_MISMATCH_LED` tells whether that macro is defined. -/
structure Config where
  regBits : Nat
  cntBits : Nat
  modeBits : Nat
  maskBits : Nat
  SPI_ENABLE : Nat
  SPI_DISABLE : Nat
  SPI_CLOCK_MASK : Nat
  SPI_CLOCK_DIV4 : Nat
  SPI_MODE_MASK : Nat
  SPI_MODE_SHIFT : Nat
  SPI_MODE0 : Nat
  SPI_FSIZE_SHIFT : Nat
  SPI_8_BIT : Nat
  SPI_DISABLE_INT : Nat
  NUM_DIGITAL_PINS : Nat
  SS_GPIO_8B0 : Nat
  SS_GPIO_8B1 : Nat
  SOC_GPIO_32 : Nat
  g_APinDescription : Nat → PinDescription
  enable_val : Nat
  disable_val : Nat
  HIGH : Nat
  OUTPUT : Nat
  SPI_MUX_MODE : Nat
  SPI_TRANSACTION_MISMATCH_LED : Bool

/-! ## State -/

/-- The members of one `SPIClass` object together with the hardware state its
methods touch.

* `initialized` .. `frameSize`: data members;
* `CTRL0`, `SPIEN`, `SER`, `BAUDR`, `IMR`: registers of the block at `spi_addr`;
* `PERIPH_CLK_GATE_CTRL`: the clock-gating register;
* `ssLevel`, `ssMode`: what `digitalWrite(ss_gpio, _)` and `pinMode(ss_gpio, _)`
  last wrote;
* `muxMOSI` .. `muxSCK`: what `SET_PIN_MODE` last wrote for the three pins;
* `pinModeMOSI` .. `pinModeSCK`: the cached `ulPinMode` of the three pins. -/
structure SPIClass where
  initialized : Nat
  interruptMode : Nat
  interruptMask0 : Nat
  interruptMask1 : Nat
  interruptMask2 : Nat
  inTransactionFlag : Nat
  lsbFirst : Bool
  frameSize : Nat
  CTRL0 : Nat
  SPIEN : Nat
  SER : Nat
  BAUDR : Nat
  IMR : Nat
  PERIPH_CLK_GATE_CTRL : Nat
  ssLevel : Nat
  ssMode : Nat
  muxMOSI : Nat
  muxMISO : Nat
  muxSCK : Nat
  pinModeMOSI : Nat
  pinModeMISO : Nat
  pinModeSCK : Nat
deriving DecidableEq, Repr

/-- Element `i` of the array `interruptMask[3]`. -/
def SPIClass.interruptMask (s : SPIClass) (i : Nat) : Nat :=
  match i with
  | 0 => s.interruptMask0
  | 1 => s.interruptMask1
  | _ => s.interruptMask2

/-! ## Configuration operations -/

/-- Method `SPIClass::setClockDivider(uint8_t clockDiv)`. -/
def SPIClass.setClockDivider (cfg : Config) (s : SPIClass) (clockDiv : Nat) : SPIClass :=
  -- SPI_M_REG_VAL(spi_addr, SPIEN) &= SPI_DISABLE;
  let s1 := { s with SPIEN := trunc cfg.regBits (s.SPIEN &&& cfg.SPI_DISABLE) }
  -- SPI_M_REG_VAL(spi_addr, BAUDR) = clockDiv & SPI_CLOCK_MASK;
  let s2 := { s1 with BAUDR := trunc cfg.regBits (clockDiv &&& cfg.SPI_CLOCK_MASK) }
  -- SPI_M_REG_VAL(spi_addr, SPIEN) |= SPI_ENABLE;
  { s2 with SPIEN := trunc cfg.regBits (s2.SPIEN ||| cfg.SPI_ENABLE) }

/-- Method `SPIClass::setDataMode(uint8_t dataMode)`. -/
def SPIClass.setDataMode (cfg : Config) (s : SPIClass) (dataMode : Nat) : SPIClass :=
  -- SPI_M_REG_VAL(spi_addr, SPIEN) &= SPI_DISABLE;
  let s1 := { s with SPIEN := trunc cfg.regBits (s.SPIEN &&& cfg.SPI_DISABLE) }
  -- CTRL0 = (CTRL0 & ~(SPI_MODE_MASK)) | ((dataMode << SPI_MODE_SHIFT) & SPI_MODE_MASK);
  let v := (s1.CTRL0 &&& complement cfg.regBits cfg.SPI_MODE_MASK)
    ||| ((dataMode <<< cfg.SPI_MODE_SHIFT) &&& cfg.SPI_MODE_MASK)
  let s2 := { s1 with CTRL0 := trunc cfg.regBits v }
  -- SPI_M_REG_VAL(spi_addr, SPIEN) |= SPI_ENABLE;
  { s2 with SPIEN := trunc cfg.regBits (s2.SPIEN ||| cfg.SPI_ENABLE) }

/-! ## Lifecycle -/

/-- Method `SPIClass::begin()`.  The calls `interrupt_lock` / `interrupt_unlock`
bracket the body and have no effect on the state modelled here. -/
def SPIClass.begin (cfg : Config) (s : SPIClass) : SPIClass :=
  let s9 :=
    if s.initialized = 0 then
      -- interruptMode = 0; interruptMask[0..2] = 0;
      let s1 := { s with interruptMode := 0, interruptMask0 := 0,
                         interruptMask1 := 0, interruptMask2 := 0 }
      -- #ifdef SPI_TRANSACTION_MISMATCH_LED  inTransactionFlag = 0;
      let s2 := if cfg.SPI_TRANSACTION_MISMATCH_LED then
                  { s1 with inTransactionFlag := 0 } else s1
      -- lsbFirst = false; frameSize = SPI_8_BIT;
      let s3 := { s2 with lsbFirst := false, frameSize := cfg.SPI_8_BIT }
      -- digitalWrite(ss_gpio, HIGH); pinMode(ss_gpio, OUTPUT);
      let s4 := { s3 with ssLevel := cfg.HIGH, ssMode := cfg.OUTPUT }
      -- SPI_M_REG_VAL(spi_addr, SPIEN) &= SPI_DISABLE;
      let s5 := { s4 with SPIEN := trunc cfg.regBits (s4.SPIEN &&& cfg.SPI_DISABLE) }
      -- MMIO_REG_VAL(PERIPH_CLK_GATE_CTRL) |= enable_val;
      let clk := trunc cfg.regBits (s5.PERIPH_CLK_GATE_CTRL ||| cfg.enable_val)
      let s6 := { s5 with PERIPH_CLK_GATE_CTRL := clk }
      -- BAUDR = SPI_CLOCK_DIV4;
      -- CTRL0 = (frameSize << SPI_FSIZE_SHIFT) | (SPI_MODE0 << SPI_MODE_SHIFT);
      -- IMR = SPI_DISABLE_INT;  SER = 0x1;
      let ctrl := (s6.frameSize <<< cfg.SPI_FSIZE_SHIFT) ||| (cfg.SPI_MODE0 <<< cfg.SPI_MODE_SHIFT)
      let s7 := { s6 with BAUDR := trunc cfg.regBits cfg.SPI_CLOCK_DIV4,
                          CTRL0 := trunc cfg.regBits ctrl,
                          IMR := trunc cfg.regBits cfg.SPI_DISABLE_INT,
                          SER := trunc cfg.regBits 1 }
      -- SPI_M_REG_VAL(spi_addr, SPIEN) |= SPI_ENABLE;
      let s8 := { s7 with SPIEN := trunc cfg.regBits (s7.SPIEN ||| cfg.SPI_ENABLE) }
      -- SET_PIN_MODE(..., SPI_MUX_MODE) and ulPinMode = SPI_MUX_MODE for MOSI, MISO, SCK
      { s8 with muxMOSI := cfg.SPI_MUX_MODE, muxMISO := cfg.SPI_MUX_MODE,
                muxSCK := cfg.SPI_MUX_MODE, pinModeMOSI := cfg.SPI_MUX_MODE,
                pinModeMISO := cfg.SPI_MUX_MODE, pinModeSCK := cfg.SPI_MUX_MODE }
    else s
  -- initialized++;
  { s9 with initialized := trunc cfg.cntBits (s9.initialized + 1) }

/-- Method `SPIClass::end()` (`end` is reserved in Lean, hence the underscore). -/
def SPIClass.end_ (cfg : Config) (s : SPIClass) : SPIClass :=
  -- if (initialized) initialized--;
  let s1 := if s.initialized ≠ 0 then { s with initialized := s.initialized - 1 } else s
  -- if (!initialized) { ... }
  if s1.initialized = 0 then
    -- SPI_M_REG_VAL(spi_addr, SPIEN) &= SPI_DISABLE;
    let s2 := { s1 with SPIEN := trunc cfg.regBits (s1.SPIEN &&& cfg.SPI_DISABLE) }
    -- MMIO_REG_VAL(PERIPH_CLK_GATE_CTRL) &= disable_val;
    let clk := trunc cfg.regBits (s2.PERIPH_CLK_GATE_CTRL &&& cfg.disable_val)
    let s3 := { s2 with PERIPH_CLK_GATE_CTRL := clk }
    -- #ifdef SPI_TRANSACTION_MISMATCH_LED  inTransactionFlag = 0;
    if cfg.SPI_TRANSACTION_MISMATCH_LED then { s3 with inTransactionFlag := 0 } else s3
  else s1

/-! ## Interrupt participation tracker -/

/-- Method `SPIClass::usingInterrupt(uint8_t interruptNumber)`.  The calls
`noInterrupts` / `interrupts` bracket the body and have no effect on the state
modelled here.  The shift `1 << p->ulGPIOId` is the mathematical one (C leaves
it undefined once the count reaches the width of `int`); the store into the
mask keeps its low `maskBits` bits.  Stores into `interruptMode` are not
truncated: the values written are 8 or the old value, below 8, or-ed with 1, 2
or 4, and every C++ integer type holds them. -/
def SPIClass.usingInterrupt (cfg : Config) (s : SPIClass) (interruptNumber : Nat) : SPIClass :=
  if s.interruptMode < 8 then
    if interruptNumber ≥ cfg.NUM_DIGITAL_PINS then
      { s with interruptMode := 8 }
    else
      let p := cfg.g_APinDescription interruptNumber
      if p.ulGPIOPort = cfg.SS_GPIO_8B0 then
        { s with interruptMode := s.interruptMode ||| 1,
                 interruptMask0 := trunc cfg.maskBits (s.interruptMask0 ||| (1 <<< p.ulGPIOId)) }
      else if p.ulGPIOPort = cfg.SS_GPIO_8B1 then
        { s with interruptMode := s.interruptMode ||| 2,
                 interruptMask1 := trunc cfg.maskBits (s.interruptMask1 ||| (1 <<< p.ulGPIOId)) }
      else if p.ulGPIOPort = cfg.SOC_GPIO_32 then
        { s with interruptMode := s.interruptMode ||| 4,
                 interruptMask2 := trunc cfg.maskBits (s.interruptMask2 ||| (1 <<< p.ulGPIOId)) }
      else
        { s with interruptMode := 8 }
  else s

/-- Method `SPIClass::notUsingInterrupt(uint8_t interruptNumber)`. -/
def SPIClass.notUsingInterrupt (cfg : Config) (s : SPIClass) (interruptNumber : Nat) : SPIClass :=
  -- if (interruptMode == 8) return;
  if s.interruptMode = 8 then s
  else if interruptNumber < cfg.NUM_DIGITAL_PINS then
    let p := cfg.g_APinDescription interruptNumber
    if p.ulGPIOPort = cfg.SS_GPIO_8B0 then
      -- interruptMask[0] &= ~(1 << p->ulGPIOId);
      let m := trunc cfg.maskBits (s.interruptMask0 &&& complement cfg.maskBits (1 <<< p.ulGPIOId))
      let s1 := { s with interruptMask0 := m }
      -- if (!interruptMask[0]) interruptMode &= ~1;
      if s1.interruptMask0 = 0 then
        { s1 with interruptMode := s1.interruptMode &&& complement cfg.modeBits 1 }
      else s1
    else if p.ulGPIOPort = cfg.SS_GPIO_8B1 then
      let m := trunc cfg.maskBits (s.interruptMask1 &&& complement cfg.maskBits (1 <<< p.ulGPIOId))
      let s1 := { s with interruptMask1 := m }
      if s1.interruptMask1 = 0 then
        { s1 with interruptMode := s1.interruptMode &&& complement cfg.modeBits 2 }
      else s1
    else if p.ulGPIOPort = cfg.SOC_GPIO_32 then
      let m := trunc cfg.maskBits (s.interruptMask2 &&& complement cfg.maskBits (1 <<< p.ulGPIOId))
      let s1 := { s with interruptMask2 := m }
      if s1.interruptMask2 = 0 then
        { s1 with interruptMode := s1.interruptMode &&& complement cfg.modeBits 4 }
      else s1
    else s
  else s

/-! ## Observations used by the statements -/

/-- The controller enable bit reads as set: `SPIEN & SPI_ENABLE` is nonzero. -/
def SPIClass.enabled (cfg : Config) (s : SPIClass) : Prop :=
  s.SPIEN &&& cfg.SPI_ENABLE ≠ 0

instance (cfg : Config) (s : SPIClass) : Decidable (SPIClass.enabled cfg s) :=
  inferInstanceAs (Decidable (s.SPIEN &&& cfg.SPI_ENABLE ≠ 0))

/-- What the statements need of the two enable constants: `SPI_ENABLE` is a
nonzero mask that fits a register and `SPI_DISABLE` has none of its bits. -/
def Config.EnableBit (cfg : Config) : Prop :=
  cfg.SPI_ENABLE ≠ 0 ∧ cfg.SPI_ENABLE < 2 ^ cfg.regBits ∧
    cfg.SPI_DISABLE &&& cfg.SPI_ENABLE = 0

instance (cfg : Config) : Decidable cfg.EnableBit :=
  inferInstanceAs (Decidable (_ ∧ _ ∧ _))

/-- The group (index into `interruptMask`) that the if-chain of
`usingInterrupt` / `notUsingInterrupt` selects for a pin, `none` when the
pin's port is none of `SS_GPIO_8B0`, `SS_GPIO_8B1`, `SOC_GPIO_32`. -/
def pinGroup (cfg : Config) (pin : Nat) : Option Nat :=
  let p := cfg.g_APinDescription pin
  if p.ulGPIOPort = cfg.SS_GPIO_8B0 then some 0
  else if p.ulGPIOPort = cfg.SS_GPIO_8B1 then some 1
  else if p.ulGPIOPort = cfg.SOC_GPIO_32 then some 2
  else none

/-- The bit index `p->ulGPIOId` of a pin. -/
def pinBit (cfg : Config) (pin : Nat) : Nat :=
  (cfg.g_APinDescription pin).ulGPIOId

/-! ## Call sequences -/

/-- One call of a public operation. -/
inductive Op where
  | begin
  | end_
  | setClockDivider (clockDiv : Nat)
  | setDataMode (dataMode : Nat)
  | usingInterrupt (interruptNumber : Nat)
  | notUsingInterrupt (interruptNumber : Nat)
deriving DecidableEq, Repr

/-- Effect of one call. -/
def step (cfg : Config) (s : SPIClass) : Op → SPIClass
  | .begin => s.begin cfg
  | .end_ => s.end_ cfg
  | .setClockDivider v => s.setClockDivider cfg v
  | .setDataMode v => s.setDataMode cfg v
  | .usingInterrupt n => s.usingInterrupt cfg n
  | .notUsingInterrupt n => s.notUsingInterrupt cfg n

/-- Effect of a sequence of calls, first call first. -/
def run (cfg : Config) (s : SPIClass) (ops : List Op) : SPIClass :=
  ops.foldl (step cfg) s

/-- The call is one of the two tracker operations. -/
def Op.isTracker : Op → Bool
  | .usingInterrupt _ => true
  | .notUsingInterrupt _ => true
  | _ => false

/-- Discipline under which the lifecycle invariant is stated: `begin` is
called only while the counter can still be incremented without wrapping, and
the two configuration operations only while a reference is held. -/
def Op.allowed (cfg : Config) (s : SPIClass) : Op → Bool
  | .begin => decide (s.initialized + 1 < 2 ^ cfg.cntBits)
  | .setClockDivider _ => decide (0 < s.initialized)
  | .setDataMode _ => decide (0 < s.initialized)
  | _ => true

/-- Every call of the sequence is allowed in the state it is made in. -/
def disciplined (cfg : Config) : SPIClass → List Op → Bool
  | _, [] => true
  | s, op :: ops => op.allowed cfg s && disciplined cfg (step cfg s op) ops

/-! ## A concrete instance -/

/-- A pin table with 21 digital pins: pin 3 is bit 3 of `SS_GPIO_8B0`, pin 5 is
bit 2 of `SS_GPIO_8B1`, pin 9 is on a port of none of the three groups, and
every other pin `n` is bit `n` of `SOC_GPIO_32`. -/
def samplePins (pin : Nat) : PinDescription :=
  if pin = 3 then ⟨0, 3⟩
  else if pin = 5 then ⟨1, 2⟩
  else if pin = 9 then ⟨3, 0⟩
  else ⟨2, pin⟩

/-- A concrete choice of constants: 32-bit registers and masks, 8-bit
`initialized` and `interruptMode`, enable bit 0 of `SPIEN`, mode field bits 6-7
of `CTRL0`. -/
def sampleConfig : Config where
  regBits := 32
  cntBits := 8
  modeBits := 8
  maskBits := 32
  SPI_ENABLE := 1
  SPI_DISABLE := 0
  SPI_CLOCK_MASK := 0xFE
  SPI_CLOCK_DIV4 := 8
  SPI_MODE_MASK := 0xC0
  SPI_MODE_SHIFT := 6
  SPI_MODE0 := 0
  SPI_FSIZE_SHIFT := 0
  SPI_8_BIT := 7
  SPI_DISABLE_INT := 0
  NUM_DIGITAL_PINS := 21
  SS_GPIO_8B0 := 0
  SS_GPIO_8B1 := 1
  SOC_GPIO_32 := 2
  g_APinDescription := samplePins
  enable_val := 0x8000
  disable_val := 0xFFFF7FFF
  HIGH := 1
  OUTPUT := 1
  SPI_MUX_MODE := 2
  SPI_TRANSACTION_MISMATCH_LED := false

/-- The object as constructed: reference count 0, every member and register 0. -/
def constructed : SPIClass where
  initialized := 0
  interruptMode := 0
  interruptMask0 := 0
  interruptMask1 := 0
  interruptMask2 := 0
  inTransactionFlag := 0
  lsbFirst := false
  frameSize := 0
  CTRL0 := 0
  SPIEN := 0
  SER := 0
  BAUDR := 0
  IMR := 0
  PERIPH_CLK_GATE_CTRL := 0
  ssLevel := 0
  ssMode := 0
  muxMOSI := 0
  muxMISO := 0
  muxSCK := 0
  pinModeMOSI := 0
  pinModeMISO := 0
  pinModeSCK := 0

/-- Every constant that `begin()` stores fits the location it is stored in:
the counter has at least one bit (it can hold 1), a register has at least one
bit (`SER = 0x1`), and `SPI_CLOCK_DIV4`, the initial `CTRL0` word,
`SPI_DISABLE_INT` and `enable_val` are below `2 ^ regBits`. -/
def Config.ConstantsFit (cfg : Config) : Prop :=
  1 ≤ cfg.cntBits ∧ 1 ≤ cfg.regBits ∧
    cfg.SPI_CLOCK_DIV4 < 2 ^ cfg.regBits ∧
    ((cfg.SPI_8_BIT <<< cfg.SPI_FSIZE_SHIFT) ||| (cfg.SPI_MODE0 <<< cfg.SPI_MODE_SHIFT))
      < 2 ^ cfg.regBits ∧
    cfg.SPI_DISABLE_INT < 2 ^ cfg.regBits ∧
    cfg.enable_val < 2 ^ cfg.regBits

instance (cfg : Config) : Decidable cfg.ConstantsFit :=
  inferInstanceAs (Decidable (_ ∧ _ ∧ _ ∧ _ ∧ _ ∧ _))

/-- The clock-gate mask used by the teardown clears exactly the bits that the
setup sets: within a register, `disable_val` is the complement of
`enable_val`. -/
def Config.GateMaskExact (cfg : Config) : Prop :=
  trunc cfg.regBits cfg.disable_val = complement cfg.regBits cfg.enable_val

instance (cfg : Config) : Decidable cfg.GateMaskExact :=
  inferInstanceAs (Decidable (_ = _))

/-! ## Bit-level lemmas -/

theorem testBit_trunc (w x i : Nat) :
    (trunc w x).testBit i = (decide (i < w) && x.testBit i) := by
  unfold trunc
  exact Nat.testBit_mod_two_pow x w i

theorem testBit_complement (w x i : Nat) :
    (complement w x).testBit i = (decide (i < w) && !x.testBit i) := by
  unfold complement
  rw [Nat.testBit_two_pow_sub_succ (Nat.mod_lt _ (Nat.two_pow_pos w)), Nat.testBit_mod_two_pow]
  by_cases h : i < w <;> simp [h]

theorem trunc_of_lt {w x : Nat} (h : x < 2 ^ w) : trunc w x = x := by
  unfold trunc
  exact Nat.mod_eq_of_lt h

theorem trunc_lt (w x : Nat) : trunc w x < 2 ^ w := by
  unfold trunc
  exact Nat.mod_lt _ (Nat.two_pow_pos w)

theorem lt_of_testBit {w x i : Nat} (h : x < 2 ^ w) (hb : x.testBit i = true) : i < w := by
  by_contra hc
  have hle : 2 ^ w ≤ 2 ^ i := Nat.pow_le_pow_right (by decide) (Nat.le_of_not_lt hc)
  have := Nat.testBit_lt_two_pow (Nat.lt_of_lt_of_le h hle)
  simp [this] at hb

theorem and_of_disjoint_testBit {a b : Nat} (h : a &&& b = 0) (i : Nat) :
    (a.testBit i && b.testBit i) = false := by
  have := congrArg (fun z => Nat.testBit z i) h
  simpa using this

/-! ## The enable register -/

theorem enable_after_or {cfg : Config} (hE : cfg.EnableBit) (x : Nat) :
    trunc cfg.regBits (x ||| cfg.SPI_ENABLE) &&& cfg.SPI_ENABLE ≠ 0 := by
  obtain ⟨hne, hlt, _⟩ := hE
  have h : trunc cfg.regBits (x ||| cfg.SPI_ENABLE) &&& cfg.SPI_ENABLE = cfg.SPI_ENABLE := by
    apply Nat.eq_of_testBit_eq
    intro i
    rw [Nat.testBit_and, testBit_trunc, Nat.testBit_or]
    cases hb : cfg.SPI_ENABLE.testBit i
    · simp
    · have := lt_of_testBit hlt hb
      simp [this]
  rw [h]
  exact hne

theorem enable_after_and {cfg : Config} (hE : cfg.EnableBit) (x : Nat) :
    trunc cfg.regBits (x &&& cfg.SPI_DISABLE) &&& cfg.SPI_ENABLE = 0 := by
  obtain ⟨_, _, hd⟩ := hE
  apply Nat.eq_of_testBit_eq
  intro i
  rw [Nat.testBit_and, testBit_trunc, Nat.testBit_and]
  have := and_of_disjoint_testBit hd i
  cases h1 : cfg.SPI_DISABLE.testBit i <;> cases h2 : cfg.SPI_ENABLE.testBit i <;>
    simp_all

/-! ## Single calls of `begin` and `end` -/

theorem begin_of_pos (cfg : Config) (s : SPIClass) (h : s.initialized ≠ 0) :
    s.begin cfg = { s with initialized := trunc cfg.cntBits (s.initialized + 1) } := by
  simp [SPIClass.begin, h]

theorem begin_of_zero (cfg : Config) (s : SPIClass) (h : s.initialized = 0) :
    s.begin cfg =
      { s with
        initialized := trunc cfg.cntBits 1
        interruptMode := 0
        interruptMask0 := 0
        interruptMask1 := 0
        interruptMask2 := 0
        inTransactionFlag := if cfg.SPI_TRANSACTION_MISMATCH_LED then 0 else s.inTransactionFlag
        lsbFirst := false
        frameSize := cfg.SPI_8_BIT
        CTRL0 := trunc cfg.regBits
          ((cfg.SPI_8_BIT <<< cfg.SPI_FSIZE_SHIFT) ||| (cfg.SPI_MODE0 <<< cfg.SPI_MODE_SHIFT))
        SPIEN := trunc cfg.regBits
          (trunc cfg.regBits (s.SPIEN &&& cfg.SPI_DISABLE) ||| cfg.SPI_ENABLE)
        SER := trunc cfg.regBits 1
        BAUDR := trunc cfg.regBits cfg.SPI_CLOCK_DIV4
        IMR := trunc cfg.regBits cfg.SPI_DISABLE_INT
        PERIPH_CLK_GATE_CTRL := trunc cfg.regBits (s.PERIPH_CLK_GATE_CTRL ||| cfg.enable_val)
        ssLevel := cfg.HIGH
        ssMode := cfg.OUTPUT
        muxMOSI := cfg.SPI_MUX_MODE
        muxMISO := cfg.SPI_MUX_MODE
        muxSCK := cfg.SPI_MUX_MODE
        pinModeMOSI := cfg.SPI_MUX_MODE
        pinModeMISO := cfg.SPI_MUX_MODE
        pinModeSCK := cfg.SPI_MUX_MODE } := by
  unfold SPIClass.begin
  cases hl : cfg.SPI_TRANSACTION_MISMATCH_LED <;> simp [h]

theorem begin_initialized (cfg : Config) (s : SPIClass) :
    (s.begin cfg).initialized = trunc cfg.cntBits (s.initialized + 1) := by
  by_cases h : s.initialized = 0
  · rw [begin_of_zero cfg s h, h]
  · rw [begin_of_pos cfg s h]

theorem begin_enabled_of_zero {cfg : Config} (hE : cfg.EnableBit) (s : SPIClass)
    (h : s.initialized = 0) : (s.begin cfg).enabled cfg := by
  unfold SPIClass.enabled
  rw [begin_of_zero cfg s h]
  exact enable_after_or hE _

theorem begin_SPIEN_of_pos (cfg : Config) (s : SPIClass) (h : s.initialized ≠ 0) :
    (s.begin cfg).SPIEN = s.SPIEN := by
  rw [begin_of_pos cfg s h]

theorem end_of_two_le (cfg : Config) (s : SPIClass) (h : 2 ≤ s.initialized) :
    s.end_ cfg = { s with initialized := s.initialized - 1 } := by
  have h1 : s.initialized ≠ 0 := by omega
  have h2 : s.initialized - 1 ≠ 0 := by omega
  simp [SPIClass.end_, h1, h2]

theorem end_initialized (cfg : Config) (s : SPIClass) :
    (s.end_ cfg).initialized = s.initialized - 1 := by
  unfold SPIClass.end_
  by_cases h : s.initialized = 0
  · cases hl : cfg.SPI_TRANSACTION_MISMATCH_LED <;> simp [h, hl]
  · by_cases h2 : s.initialized - 1 = 0
    · cases hl : cfg.SPI_TRANSACTION_MISMATCH_LED <;> simp [h, h2, hl]
    · simp [h, h2]

theorem end_disabled_of_le_one {cfg : Config} (hE : cfg.EnableBit) (s : SPIClass)
    (h : s.initialized ≤ 1) : ¬ (s.end_ cfg).enabled cfg := by
  unfold SPIClass.enabled
  have key : (s.end_ cfg).SPIEN = trunc cfg.regBits (s.SPIEN &&& cfg.SPI_DISABLE) := by
    unfold SPIClass.end_
    by_cases h0 : s.initialized = 0
    · cases hl : cfg.SPI_TRANSACTION_MISMATCH_LED <;> simp [h0, hl]
    · have h2 : s.initialized - 1 = 0 := by omega
      cases hl : cfg.SPI_TRANSACTION_MISMATCH_LED <;> simp [h0, h2, hl]
  rw [key]
  simp [enable_after_and hE]

/-! ## Repeated `begin` and `end` -/

theorem begin_iterate {cfg : Config} (hE : cfg.EnableBit) (s : SPIClass)
    (h0 : s.initialized = 0) (k : Nat) (h1 : 1 ≤ k) (hk : k < 2 ^ cfg.cntBits) :
    ((SPIClass.begin cfg)^[k] s).initialized = k ∧ ((SPIClass.begin cfg)^[k] s).enabled cfg := by
  induction k with
  | zero => omega
  | succ k ih =>
    rw [Function.iterate_succ_apply']
    by_cases hk0 : k = 0
    · subst hk0
      simp only [Function.iterate_zero, id_eq]
      refine ⟨?_, begin_enabled_of_zero hE s h0⟩
      rw [begin_initialized, h0]
      exact trunc_of_lt hk
    · obtain ⟨hc, he⟩ := ih (by omega) (by omega)
      have hpos : ((SPIClass.begin cfg)^[k] s).initialized ≠ 0 := by omega
      refine ⟨?_, ?_⟩
      · rw [begin_initialized, hc]
        exact trunc_of_lt hk
      · unfold SPIClass.enabled at he ⊢
        rw [begin_SPIEN_of_pos cfg _ hpos]
        exact he

theorem end_iterate {cfg : Config} (hE : cfg.EnableBit) (t : SPIClass)
    (he : t.enabled cfg) (j : Nat) (hj : j ≤ t.initialized) :
    ((SPIClass.end_ cfg)^[j] t).initialized = t.initialized - j ∧
      (j < t.initialized → ((SPIClass.end_ cfg)^[j] t).enabled cfg) ∧
      (1 ≤ j → j = t.initialized → ¬ ((SPIClass.end_ cfg)^[j] t).enabled cfg) := by
  induction j with
  | zero =>
    simp only [Function.iterate_zero, id_eq]
    exact ⟨by omega, fun _ => he, fun h => by omega⟩
  | succ j ih =>
    rw [Function.iterate_succ_apply']
    obtain ⟨hc, hen, _⟩ := ih (by omega)
    refine ⟨?_, ?_, ?_⟩
    · rw [end_initialized, hc]
      omega
    · intro hlt
      have h2 : 2 ≤ ((SPIClass.end_ cfg)^[j] t).initialized := by omega
      have := hen (by omega)
      unfold SPIClass.enabled at this ⊢
      rw [end_of_two_le cfg _ h2]
      exact this
    · intro _ heq
      exact end_disabled_of_le_one hE _ (by omega)

/-- After `2 ^ cntBits` calls of `begin` the counter has wrapped to 0 while the
controller is still enabled. -/
theorem begin_iterate_wrap {cfg : Config} (hE : cfg.EnableBit) (hw : 1 ≤ cfg.cntBits)
    (s : SPIClass) (h0 : s.initialized = 0) :
    ((SPIClass.begin cfg)^[2 ^ cfg.cntBits] s).initialized = 0 ∧
      ((SPIClass.begin cfg)^[2 ^ cfg.cntBits] s).enabled cfg := by
  have h2 : 2 ^ 1 ≤ 2 ^ cfg.cntBits := Nat.pow_le_pow_right (by decide) hw
  obtain ⟨hc, he⟩ := begin_iterate hE s h0 (2 ^ cfg.cntBits - 1) (by omega) (by omega)
  have hsplit : 2 ^ cfg.cntBits = (2 ^ cfg.cntBits - 1) + 1 := by omega
  have hpos : ((SPIClass.begin cfg)^[2 ^ cfg.cntBits - 1] s).initialized ≠ 0 := by omega
  have hit : (SPIClass.begin cfg)^[2 ^ cfg.cntBits] s
      = SPIClass.begin cfg ((SPIClass.begin cfg)^[2 ^ cfg.cntBits - 1] s) := by
    conv_lhs => rw [hsplit]
    rw [Function.iterate_succ_apply']
  rw [hit]
  refine ⟨?_, ?_⟩
  · rw [begin_initialized, hc]
    unfold trunc
    have : 2 ^ cfg.cntBits - 1 + 1 = 2 ^ cfg.cntBits := by omega
    rw [this, Nat.mod_self]
  · unfold SPIClass.enabled at he ⊢
    rw [begin_SPIEN_of_pos cfg _ hpos]
    exact he

/-- Whatever the width of the counter, `2 ^ cntBits` calls of `begin` followed
by a single `end` leave the controller disabled. -/
theorem end_after_wrap_disabled {cfg : Config} (hE : cfg.EnableBit) (hw : 1 ≤ cfg.cntBits)
    (s : SPIClass) (h0 : s.initialized = 0) :
    ¬ (SPIClass.end_ cfg ((SPIClass.begin cfg)^[2 ^ cfg.cntBits] s)).enabled cfg := by
  have h := begin_iterate_wrap hE hw s h0
  exact end_disabled_of_le_one hE _ (by omega)

theorem sampleConfig_enableBit : sampleConfig.EnableBit := by decide

/-- C1, amended: for a counter of `cntBits` bits and `1 ≤ n < 2 ^ cntBits`,
starting with reference count 0, `n` calls of `begin` followed by `n` calls
of `end` leave the controller enable bit set after each `begin` and after each
of the first `n - 1` calls of `end`, and clear after the `n`-th `end`. -/
theorem begin_end_paired (cfg : Config) (hE : cfg.EnableBit) (n : Nat) (h1 : 1 ≤ n)
    (hn : n < 2 ^ cfg.cntBits) (s : SPIClass) (h0 : s.initialized = 0) :
    (∀ k, 1 ≤ k → k ≤ n → ((SPIClass.begin cfg)^[k] s).enabled cfg) ∧
    (∀ j, 1 ≤ j → j ≤ n - 1 →
      ((SPIClass.end_ cfg)^[j] ((SPIClass.begin cfg)^[n] s)).enabled cfg) ∧
    ¬ ((SPIClass.end_ cfg)^[n] ((SPIClass.begin cfg)^[n] s)).enabled cfg := by
  obtain ⟨hc, he⟩ := begin_iterate hE s h0 n h1 hn
  refine ⟨?_, ?_, ?_⟩
  · intro k hk1 hkn
    exact (begin_iterate hE s h0 k hk1 (by omega)).2
  · intro j _ hj
    exact (end_iterate hE _ he j (by omega)).2.1 (by omega)
  · exact (end_iterate hE _ he n (by omega)).2.2 h1 hc.symm

theorem begin_end_paired_witness :
    sampleConfig.EnableBit ∧ 1 ≤ 3 ∧ 3 < 2 ^ sampleConfig.cntBits ∧ constructed.initialized = 0 ∧
    ((∀ k, 1 ≤ k → k ≤ 3 → ((SPIClass.begin sampleConfig)^[k] constructed).enabled sampleConfig) ∧
    (∀ j, 1 ≤ j → j ≤ 3 - 1 →
      ((SPIClass.end_ sampleConfig)^[j]
        ((SPIClass.begin sampleConfig)^[3] constructed)).enabled sampleConfig) ∧
    ¬ ((SPIClass.end_ sampleConfig)^[3]
        ((SPIClass.begin sampleConfig)^[3] constructed)).enabled sampleConfig) :=
  ⟨by decide, by decide, by decide, rfl,
    begin_end_paired sampleConfig (by decide) 3 (by decide) (by decide) constructed rfl⟩

/-- C1 as stated fails for an 8-bit counter at `n = 256`: the 256th `begin`
wraps the counter to 0, so the first `end` already clears the enable bit,
although `1 ≤ 256 - 1`. -/
theorem begin_end_paired_fails_at_wrap :
    constructed.initialized = 0 ∧ 1 ≤ 256 - 1 ∧
    ¬ ((SPIClass.end_ sampleConfig)^[1]
        ((SPIClass.begin sampleConfig)^[256] constructed)).enabled sampleConfig := by
  refine ⟨rfl, by decide, ?_⟩
  have h := begin_iterate_wrap sampleConfig_enableBit (by decide) constructed rfl
  have h256 : 2 ^ sampleConfig.cntBits = 256 := by decide
  rw [h256] at h
  rw [Function.iterate_one]
  exact end_disabled_of_le_one sampleConfig_enableBit _ (by omega)

/-! ## Frame lemmas for the remaining operations -/

theorem usingInterrupt_initialized (cfg : Config) (s : SPIClass) (n : Nat) :
    (s.usingInterrupt cfg n).initialized = s.initialized := by
  unfold SPIClass.usingInterrupt
  dsimp only
  split_ifs <;> rfl

theorem usingInterrupt_SPIEN (cfg : Config) (s : SPIClass) (n : Nat) :
    (s.usingInterrupt cfg n).SPIEN = s.SPIEN := by
  unfold SPIClass.usingInterrupt
  dsimp only
  split_ifs <;> rfl

theorem notUsingInterrupt_initialized (cfg : Config) (s : SPIClass) (n : Nat) :
    (s.notUsingInterrupt cfg n).initialized = s.initialized := by
  unfold SPIClass.notUsingInterrupt
  dsimp only
  split_ifs <;> rfl

theorem notUsingInterrupt_SPIEN (cfg : Config) (s : SPIClass) (n : Nat) :
    (s.notUsingInterrupt cfg n).SPIEN = s.SPIEN := by
  unfold SPIClass.notUsingInterrupt
  dsimp only
  split_ifs <;> rfl

theorem setClockDivider_enabled {cfg : Config} (hE : cfg.EnableBit) (s : SPIClass) (v : Nat) :
    (s.setClockDivider cfg v).enabled cfg := by
  unfold SPIClass.enabled SPIClass.setClockDivider
  exact enable_after_or hE _

theorem setDataMode_enabled {cfg : Config} (hE : cfg.EnableBit) (s : SPIClass) (v : Nat) :
    (s.setDataMode cfg v).enabled cfg := by
  unfold SPIClass.enabled SPIClass.setDataMode
  exact enable_after_or hE _

theorem run_nil (cfg : Config) (s : SPIClass) : run cfg s [] = s := rfl

theorem run_cons (cfg : Config) (s : SPIClass) (op : Op) (ops : List Op) :
    run cfg s (op :: ops) = run cfg (step cfg s op) ops := rfl

theorem run_replicate_begin (cfg : Config) (n : Nat) (s : SPIClass) :
    run cfg s (List.replicate n Op.begin) = (SPIClass.begin cfg)^[n] s := by
  induction n generalizing s with
  | zero => rfl
  | succ n ih =>
    rw [List.replicate_succ, run_cons, ih, Function.iterate_succ_apply]
    rfl

/-! ## The lifecycle invariant -/

theorem step_enabled_iff {cfg : Config} (hE : cfg.EnableBit) (s : SPIClass) (op : Op)
    (hinv : s.enabled cfg ↔ 0 < s.initialized) (ha : op.allowed cfg s = true) :
    (step cfg s op).enabled cfg ↔ 0 < (step cfg s op).initialized := by
  cases op with
  | begin =>
    have hlt : s.initialized + 1 < 2 ^ cfg.cntBits := by simpa [Op.allowed] using ha
    have hc : (s.begin cfg).initialized = s.initialized + 1 := by
      rw [begin_initialized]
      exact trunc_of_lt hlt
    show (s.begin cfg).enabled cfg ↔ 0 < (s.begin cfg).initialized
    rw [hc]
    refine ⟨fun _ => by omega, fun _ => ?_⟩
    by_cases h0 : s.initialized = 0
    · exact begin_enabled_of_zero hE s h0
    · have : s.enabled cfg := hinv.2 (by omega)
      unfold SPIClass.enabled at this ⊢
      rw [begin_SPIEN_of_pos cfg s h0]
      exact this
  | end_ =>
    show (s.end_ cfg).enabled cfg ↔ 0 < (s.end_ cfg).initialized
    rw [end_initialized]
    by_cases h2 : 2 ≤ s.initialized
    · have : s.enabled cfg := hinv.2 (by omega)
      refine ⟨fun _ => by omega, fun _ => ?_⟩
      unfold SPIClass.enabled at this ⊢
      rw [end_of_two_le cfg s h2]
      exact this
    · have hd := end_disabled_of_le_one hE s (by omega)
      exact ⟨fun h => absurd h hd, fun h => by omega⟩
  | setClockDivider v =>
    have hpos : 0 < s.initialized := by simpa [Op.allowed] using ha
    exact ⟨fun _ => hpos, fun _ => setClockDivider_enabled hE s v⟩
  | setDataMode v =>
    have hpos : 0 < s.initialized := by simpa [Op.allowed] using ha
    exact ⟨fun _ => hpos, fun _ => setDataMode_enabled hE s v⟩
  | usingInterrupt n =>
    show (s.usingInterrupt cfg n).enabled cfg ↔ 0 < (s.usingInterrupt cfg n).initialized
    unfold SPIClass.enabled at hinv ⊢
    rw [usingInterrupt_initialized, usingInterrupt_SPIEN]
    exact hinv
  | notUsingInterrupt n =>
    show (s.notUsingInterrupt cfg n).enabled cfg ↔ 0 < (s.notUsingInterrupt cfg n).initialized
    unfold SPIClass.enabled at hinv ⊢
    rw [notUsingInterrupt_initialized, notUsingInterrupt_SPIEN]
    exact hinv

theorem run_enabled_iff {cfg : Config} (hE : cfg.EnableBit) (ops : List Op) (s : SPIClass)
    (hinv : s.enabled cfg ↔ 0 < s.initialized) (hd : disciplined cfg s ops = true) :
    (run cfg s ops).enabled cfg ↔ 0 < (run cfg s ops).initialized := by
  induction ops generalizing s with
  | nil => exact hinv
  | cons op ops ih =>
    rw [disciplined, Bool.and_eq_true] at hd
    rw [run_cons]
    exact ih _ (step_enabled_iff hE s op hinv hd.1) hd.2

/-- C2, amended: from the constructed state (reference count 0, controller
disabled), after any sequence of `begin`, `end`, `setClockDivider`,
`setDataMode`, `usingInterrupt` and `notUsingInterrupt` in which `begin` is
called only while the counter does not wrap and the two configuration
operations are called only while the reference count is positive, the
controller enable bit is set if and only if the reference count is positive. -/
theorem enabled_iff_referenced (cfg : Config) (hE : cfg.EnableBit) (s0 : SPIClass)
    (h0 : s0.initialized = 0) (hoff : ¬ s0.enabled cfg) (ops : List Op)
    (hd : disciplined cfg s0 ops = true) :
    (run cfg s0 ops).enabled cfg ↔ 0 < (run cfg s0 ops).initialized := by
  apply run_enabled_iff hE ops s0 _ hd
  rw [h0]
  exact ⟨fun h => absurd h hoff, fun h => absurd h (by decide)⟩

theorem enabled_iff_referenced_witness :
    sampleConfig.EnableBit ∧ constructed.initialized = 0 ∧ ¬ constructed.enabled sampleConfig ∧
    disciplined sampleConfig constructed
      [.begin, .setClockDivider 16, .begin, .usingInterrupt 3, .setDataMode 3, .end_, .end_,
        .end_] = true ∧
    ((run sampleConfig constructed
      [.begin, .setClockDivider 16, .begin, .usingInterrupt 3, .setDataMode 3, .end_, .end_,
        .end_]).enabled sampleConfig ↔
      0 < (run sampleConfig constructed
      [.begin, .setClockDivider 16, .begin, .usingInterrupt 3, .setDataMode 3, .end_, .end_,
        .end_]).initialized) :=
  ⟨by decide, rfl, by decide, by decide,
    enabled_iff_referenced sampleConfig (by decide) constructed rfl (by decide) _ (by decide)⟩

/-- C2 as stated fails: `setClockDivider` called on the constructed object
re-enables the controller while the reference count is still 0; and 256 calls
of `begin` wrap an 8-bit counter to 0 with the controller enabled. -/
theorem enabled_iff_referenced_fails :
    constructed.initialized = 0 ∧ ¬ constructed.enabled sampleConfig ∧
    ((run sampleConfig constructed [.setClockDivider 0]).enabled sampleConfig ∧
      (run sampleConfig constructed [.setClockDivider 0]).initialized = 0) ∧
    ((run sampleConfig constructed (List.replicate 256 .begin)).enabled sampleConfig ∧
      (run sampleConfig constructed (List.replicate 256 .begin)).initialized = 0) := by
  refine ⟨rfl, by decide, ⟨by decide, by decide⟩, ?_⟩
  rw [run_replicate_begin]
  have h := begin_iterate_wrap sampleConfig_enableBit (by decide) constructed rfl
  have h256 : 2 ^ sampleConfig.cntBits = 256 := by decide
  rw [h256] at h
  exact ⟨h.2, h.1⟩

/-! ## The tracker operations, branch by branch -/

theorem pinGroup_lt {cfg : Config} {pin g : Nat} (hg : pinGroup cfg pin = some g) : g < 3 := by
  unfold pinGroup at hg
  dsimp only at hg
  split_ifs at hg <;> simp at hg <;> omega

theorem usingInterrupt_overflow (cfg : Config) (s : SPIClass) (pin : Nat)
    (hm : ¬ s.interruptMode < 8) : s.usingInterrupt cfg pin = s := by
  simp [SPIClass.usingInterrupt, hm]

theorem usingInterrupt_miss (cfg : Config) (s : SPIClass) (pin : Nat)
    (hm : s.interruptMode < 8)
    (hp : cfg.NUM_DIGITAL_PINS ≤ pin ∨ pinGroup cfg pin = none) :
    s.usingInterrupt cfg pin = { s with interruptMode := 8 } := by
  unfold SPIClass.usingInterrupt
  rw [if_pos hm]
  by_cases hr : pin ≥ cfg.NUM_DIGITAL_PINS
  · rw [if_pos hr]
  · rw [if_neg hr]
    rcases hp with hp | hp
    · exact absurd hp hr
    · unfold pinGroup at hp
      dsimp only at hp ⊢
      split_ifs at hp ⊢
      rfl

theorem usingInterrupt_hit (cfg : Config) (s : SPIClass) (pin g : Nat)
    (hm : s.interruptMode < 8) (hr : pin < cfg.NUM_DIGITAL_PINS)
    (hg : pinGroup cfg pin = some g) :
    (s.usingInterrupt cfg pin).interruptMode = s.interruptMode ||| 2 ^ g ∧
    (s.usingInterrupt cfg pin).interruptMask g
      = trunc cfg.maskBits (s.interruptMask g ||| 2 ^ pinBit cfg pin) ∧
    ∀ i, i < 3 → i ≠ g →
      (s.usingInterrupt cfg pin).interruptMask i = s.interruptMask i := by
  have hr2 : ¬ pin ≥ cfg.NUM_DIGITAL_PINS := by omega
  unfold SPIClass.usingInterrupt
  rw [if_pos hm, if_neg hr2]
  unfold pinGroup at hg
  unfold pinBit
  dsimp only at hg ⊢
  rw [Nat.one_shiftLeft]
  split_ifs at hg ⊢ <;> simp only [Option.some.injEq] at hg <;> subst hg <;>
    refine ⟨rfl, rfl, ?_⟩ <;> intro i hi hne <;> interval_cases i <;>
    first
      | rfl
      | exact absurd rfl hne

theorem notUsingInterrupt_overflow (cfg : Config) (s : SPIClass) (pin : Nat)
    (hm : s.interruptMode = 8) : s.notUsingInterrupt cfg pin = s := by
  simp [SPIClass.notUsingInterrupt, hm]

theorem notUsingInterrupt_miss (cfg : Config) (s : SPIClass) (pin : Nat)
    (hp : cfg.NUM_DIGITAL_PINS ≤ pin ∨ pinGroup cfg pin = none) :
    s.notUsingInterrupt cfg pin = s := by
  unfold SPIClass.notUsingInterrupt
  by_cases hm : s.interruptMode = 8
  · rw [if_pos hm]
  · rw [if_neg hm]
    by_cases hr : pin < cfg.NUM_DIGITAL_PINS
    · rw [if_pos hr]
      rcases hp with hp | hp
      · omega
      · unfold pinGroup at hp
        dsimp only at hp ⊢
        split_ifs at hp ⊢
        rfl
    · rw [if_neg hr]

theorem notUsingInterrupt_hit (cfg : Config) (s : SPIClass) (pin g : Nat)
    (hm : s.interruptMode ≠ 8) (hr : pin < cfg.NUM_DIGITAL_PINS)
    (hg : pinGroup cfg pin = some g) :
    (s.notUsingInterrupt cfg pin).interruptMask g
      = trunc cfg.maskBits (s.interruptMask g &&& complement cfg.maskBits (2 ^ pinBit cfg pin)) ∧
    (s.notUsingInterrupt cfg pin).interruptMode
      = (if (s.notUsingInterrupt cfg pin).interruptMask g = 0
          then s.interruptMode &&& complement cfg.modeBits (2 ^ g) else s.interruptMode) ∧
    ∀ i, i < 3 → i ≠ g →
      (s.notUsingInterrupt cfg pin).interruptMask i = s.interruptMask i := by
  unfold SPIClass.notUsingInterrupt
  rw [if_neg hm, if_pos hr]
  unfold pinGroup at hg
  unfold pinBit
  dsimp only at hg ⊢
  rw [Nat.one_shiftLeft]
  split_ifs at hg ⊢ <;> simp only [Option.some.injEq] at hg <;> subst hg <;>
    refine ⟨rfl, ?_, ?_⟩ <;>
    first
      | (intro i hi hne; interval_cases i <;> first | rfl | exact absurd rfl hne)
      | simp_all [SPIClass.interruptMask]

/-! ## Setting and clearing one bit -/

theorem clear_of_unset {w m b : Nat} (hm : m < 2 ^ w) (hb : m.testBit b = false) :
    m &&& complement w (2 ^ b) = m := by
  apply Nat.eq_of_testBit_eq
  intro i
  simp only [Nat.testBit_and, testBit_complement, Nat.testBit_two_pow]
  by_cases hib : b = i
  · subst hib
    simp [hb]
  · cases hmi : m.testBit i
    · simp
    · have := lt_of_testBit hm hmi
      simp [hib, this]

theorem set_of_set {m g : Nat} (hg : m.testBit g = true) : m ||| 2 ^ g = m := by
  apply Nat.eq_of_testBit_eq
  intro i
  simp only [Nat.testBit_or, Nat.testBit_two_pow]
  by_cases hib : g = i
  · subst hib
    simp [hg]
  · simp [hib]

theorem clear_after_set {w m b : Nat} (hm : m < 2 ^ w) (hb : m.testBit b = false) :
    (m ||| 2 ^ b) &&& complement w (2 ^ b) = m := by
  apply Nat.eq_of_testBit_eq
  intro i
  simp only [Nat.testBit_and, Nat.testBit_or, testBit_complement, Nat.testBit_two_pow]
  by_cases hib : b = i
  · subst hib
    simp [hb]
  · cases hmi : m.testBit i
    · simp [hib]
    · have := lt_of_testBit hm hmi
      simp [hib, this]

theorem trunc_clear_after_trunc_set {w m b : Nat} (hm : m < 2 ^ w) (hb : m.testBit b = false) :
    trunc w (trunc w (m ||| 2 ^ b) &&& complement w (2 ^ b)) = m := by
  apply Nat.eq_of_testBit_eq
  intro i
  simp only [Nat.testBit_and, Nat.testBit_or, testBit_complement, testBit_trunc,
    Nat.testBit_two_pow]
  by_cases hib : b = i
  · subst hib
    simp [hb]
  · cases hmi : m.testBit i
    · simp [hib]
    · have := lt_of_testBit hm hmi
      simp [hib, this]

theorem or_two_pow_lt_eight {m g : Nat} (hm : m < 8) (hg : g < 3) : m ||| 2 ^ g < 8 := by
  have h8 : (8 : Nat) = 2 ^ 3 := by norm_num
  have h2 : 2 ^ g < 2 ^ 3 := Nat.pow_lt_pow_right (by decide) hg
  rw [h8] at hm ⊢
  exact Nat.or_lt_two_pow hm h2

/-- C4, amended: for a tracker state whose mode is not 8 and an in-range pin
classified into group `g` whose bit is not yet set in `interruptMask[g]`, in a
state where bit `g` of the mode is set exactly when `interruptMask[g]` is
nonzero, `usingInterrupt(pin)` followed by `notUsingInterrupt(pin)` restores
`interruptMask[g]` and the mode.  (The mode and the mask fit their widths.) -/
theorem using_then_notUsing (cfg : Config) (s : SPIClass) (pin g : Nat)
    (hmode : s.interruptMode ≠ 8)
    (hmw : s.interruptMode < 2 ^ cfg.modeBits)
    (hkw : s.interruptMask g < 2 ^ cfg.maskBits)
    (hr : pin < cfg.NUM_DIGITAL_PINS)
    (hg : pinGroup cfg pin = some g)
    (hfresh : (s.interruptMask g).testBit (pinBit cfg pin) = false)
    (hinv : s.interruptMode.testBit g = true ↔ s.interruptMask g ≠ 0) :
    ((s.usingInterrupt cfg pin).notUsingInterrupt cfg pin).interruptMask g = s.interruptMask g ∧
    ((s.usingInterrupt cfg pin).notUsingInterrupt cfg pin).interruptMode = s.interruptMode := by
  by_cases hlt : s.interruptMode < 8
  · obtain ⟨umode, umask, _⟩ := usingInterrupt_hit cfg s pin g hlt hr hg
    have hlt2 : (s.usingInterrupt cfg pin).interruptMode < 8 := by
      rw [umode]
      exact or_two_pow_lt_eight hlt (pinGroup_lt hg)
    obtain ⟨nmask, nmode, _⟩ :=
      notUsingInterrupt_hit cfg (s.usingInterrupt cfg pin) pin g (by omega) hr hg
    have hmask : ((s.usingInterrupt cfg pin).notUsingInterrupt cfg pin).interruptMask g
        = s.interruptMask g := by
      rw [nmask, umask]
      exact trunc_clear_after_trunc_set hkw hfresh
    refine ⟨hmask, ?_⟩
    rw [nmode, hmask, umode]
    by_cases hz : s.interruptMask g = 0
    · rw [if_pos hz]
      have hbit : s.interruptMode.testBit g = false := by
        cases hb : s.interruptMode.testBit g
        · rfl
        · exact absurd hz (hinv.1 hb)
      exact clear_after_set hmw hbit
    · rw [if_neg hz]
      exact set_of_set (hinv.2 hz)
  · rw [usingInterrupt_overflow cfg s pin hlt]
    obtain ⟨nmask, nmode, _⟩ := notUsingInterrupt_hit cfg s pin g hmode hr hg
    have hmask : (s.notUsingInterrupt cfg pin).interruptMask g = s.interruptMask g := by
      rw [nmask, clear_of_unset hkw hfresh]
      exact trunc_of_lt hkw
    refine ⟨hmask, ?_⟩
    rw [nmode, hmask]
    by_cases hz : s.interruptMask g = 0
    · rw [if_pos hz]
      have hbit : s.interruptMode.testBit g = false := by
        cases hb : s.interruptMode.testBit g
        · rfl
        · exact absurd hz (hinv.1 hb)
      exact clear_of_unset hmw hbit
    · rw [if_neg hz]

theorem using_then_notUsing_witness :
    (run sampleConfig constructed [.begin, .usingInterrupt 5]).interruptMode ≠ 8 ∧
    (run sampleConfig constructed [.begin, .usingInterrupt 5]).interruptMode
      < 2 ^ sampleConfig.modeBits ∧
    (run sampleConfig constructed [.begin, .usingInterrupt 5]).interruptMask 0
      < 2 ^ sampleConfig.maskBits ∧
    3 < sampleConfig.NUM_DIGITAL_PINS ∧ pinGroup sampleConfig 3 = some 0 ∧
    (((run sampleConfig constructed [.begin, .usingInterrupt 5]).usingInterrupt
        sampleConfig 3).notUsingInterrupt sampleConfig 3).interruptMask 0
      = (run sampleConfig constructed [.begin, .usingInterrupt 5]).interruptMask 0 ∧
    (((run sampleConfig constructed [.begin, .usingInterrupt 5]).usingInterrupt
        sampleConfig 3).notUsingInterrupt sampleConfig 3).interruptMode
      = (run sampleConfig constructed [.begin, .usingInterrupt 5]).interruptMode :=
  ⟨by decide, by decide, by decide, by decide, by decide,
    using_then_notUsing sampleConfig (run sampleConfig constructed [.begin, .usingInterrupt 5])
      3 0 (by decide) (by decide) (by decide) (by decide) (by decide) (by decide) (by decide)⟩

/-- C4 as stated fails.  First conjunct: pin 3 (group 0, bit 3) is already
registered (mode 1, mask 8); registering it again and removing it once leaves
mask 0 and mode 0.  Second conjunct: in a state with mode 0 and
`interruptMask[0]` = 1 the mask is restored but the mode ends as 1. -/
theorem using_then_notUsing_fails :
    ((run sampleConfig constructed [.begin, .usingInterrupt 3]).interruptMode ≠ 8 ∧
      3 < sampleConfig.NUM_DIGITAL_PINS ∧ pinGroup sampleConfig 3 = some 0 ∧
      (((run sampleConfig constructed [.begin, .usingInterrupt 3]).usingInterrupt
          sampleConfig 3).notUsingInterrupt sampleConfig 3).interruptMask 0
        ≠ (run sampleConfig constructed [.begin, .usingInterrupt 3]).interruptMask 0) ∧
    (({ constructed with interruptMask0 := 1 } : SPIClass).interruptMode ≠ 8 ∧
      ((({ constructed with interruptMask0 := 1 } : SPIClass).usingInterrupt
          sampleConfig 3).notUsingInterrupt sampleConfig 3).interruptMode
        ≠ ({ constructed with interruptMask0 := 1 } : SPIClass).interruptMode) := by
  decide

/-! ## `end` with no reference held -/

theorem trunc_and_idem (w x d : Nat) :
    trunc w (trunc w (x &&& d) &&& d) = trunc w (x &&& d) := by
  apply Nat.eq_of_testBit_eq
  intro i
  simp only [testBit_trunc, Nat.testBit_and]
  cases decide (i < w) <;> cases x.testBit i <;> cases d.testBit i <;> rfl

/-- C3, amended: for every state whose reference count is 0, `end()` leaves
the reference count, the tracker's mode and masks, every register other than
`SPIEN` and `PERIPH_CLK_GATE_CTRL` and every other member unchanged; it stores
`SPIEN & SPI_DISABLE` and `PERIPH_CLK_GATE_CTRL & disable_val` in those two
registers (and zeroes `inTransactionFlag` when `SPI_TRANSACTION_MISMATCH_LED`
is defined).  So the whole state is unchanged exactly when these stores write
back what was there, and a second `end()` changes nothing more. -/
theorem end_at_zero (cfg : Config) (s : SPIClass) (h0 : s.initialized = 0) :
    s.end_ cfg =
      { s with
        SPIEN := trunc cfg.regBits (s.SPIEN &&& cfg.SPI_DISABLE)
        PERIPH_CLK_GATE_CTRL := trunc cfg.regBits (s.PERIPH_CLK_GATE_CTRL &&& cfg.disable_val)
        inTransactionFlag :=
          if cfg.SPI_TRANSACTION_MISMATCH_LED then 0 else s.inTransactionFlag } ∧
    (s.end_ cfg = s ↔
      (trunc cfg.regBits (s.SPIEN &&& cfg.SPI_DISABLE) = s.SPIEN ∧
        trunc cfg.regBits (s.PERIPH_CLK_GATE_CTRL &&& cfg.disable_val) = s.PERIPH_CLK_GATE_CTRL ∧
        (cfg.SPI_TRANSACTION_MISMATCH_LED = true → s.inTransactionFlag = 0))) ∧
    (s.end_ cfg).end_ cfg = s.end_ cfg := by
  have key : s.end_ cfg =
      { s with
        SPIEN := trunc cfg.regBits (s.SPIEN &&& cfg.SPI_DISABLE)
        PERIPH_CLK_GATE_CTRL := trunc cfg.regBits (s.PERIPH_CLK_GATE_CTRL &&& cfg.disable_val)
        inTransactionFlag :=
          if cfg.SPI_TRANSACTION_MISMATCH_LED then 0 else s.inTransactionFlag } := by
    unfold SPIClass.end_
    cases hl : cfg.SPI_TRANSACTION_MISMATCH_LED <;> simp [h0]
  have idem : (s.end_ cfg).end_ cfg = s.end_ cfg := by
    have hz : (s.end_ cfg).initialized = 0 := by rw [end_initialized, h0]
    unfold SPIClass.end_ at hz ⊢
    cases hl : cfg.SPI_TRANSACTION_MISMATCH_LED <;>
      simp_all [trunc_and_idem]
  refine ⟨key, ?_, idem⟩
  rw [key]
  constructor
  · intro h
    have h1 := congrArg SPIClass.SPIEN h
    have h2 := congrArg SPIClass.PERIPH_CLK_GATE_CTRL h
    have h3 := congrArg SPIClass.inTransactionFlag h
    refine ⟨h1, h2, ?_⟩
    intro hl
    simp only [hl, if_true] at h3
    exact h3.symm
  · rintro ⟨h1, h2, h3⟩
    cases s
    cases hl : cfg.SPI_TRANSACTION_MISMATCH_LED <;> simp_all

theorem end_at_zero_witness :
    constructed.initialized = 0 ∧
    (constructed.end_ sampleConfig =
      { constructed with
        SPIEN := trunc sampleConfig.regBits (constructed.SPIEN &&& sampleConfig.SPI_DISABLE)
        PERIPH_CLK_GATE_CTRL :=
          trunc sampleConfig.regBits
            (constructed.PERIPH_CLK_GATE_CTRL &&& sampleConfig.disable_val)
        inTransactionFlag :=
          if sampleConfig.SPI_TRANSACTION_MISMATCH_LED then 0
          else constructed.inTransactionFlag } ∧
    (constructed.end_ sampleConfig = constructed ↔
      (trunc sampleConfig.regBits (constructed.SPIEN &&& sampleConfig.SPI_DISABLE)
          = constructed.SPIEN ∧
        trunc sampleConfig.regBits
            (constructed.PERIPH_CLK_GATE_CTRL &&& sampleConfig.disable_val)
          = constructed.PERIPH_CLK_GATE_CTRL ∧
        (sampleConfig.SPI_TRANSACTION_MISMATCH_LED = true →
          constructed.inTransactionFlag = 0))) ∧
    (constructed.end_ sampleConfig).end_ sampleConfig = constructed.end_ sampleConfig) :=
  ⟨rfl, end_at_zero sampleConfig constructed rfl⟩

/-- C3 as stated fails: in the state reached from the constructed object by
`setClockDivider(0)` the reference count is 0 and `SPIEN` is 1; `end()` then
writes 0 to `SPIEN`. -/
theorem end_at_zero_changes_state :
    (run sampleConfig constructed [.setClockDivider 0]).initialized = 0 ∧
    (run sampleConfig constructed [.setClockDivider 0]).SPIEN = 1 ∧
    ((run sampleConfig constructed [.setClockDivider 0]).end_ sampleConfig).SPIEN = 0 ∧
    (run sampleConfig constructed [.setClockDivider 0]).end_ sampleConfig
      ≠ run sampleConfig constructed [.setClockDivider 0] := by
  decide

/-! ## Overflow is sticky -/

theorem run_tracker_overflow (cfg : Config) (ops : List Op) (s : SPIClass)
    (h8 : s.interruptMode = 8) (hops : ∀ op ∈ ops, op.isTracker = true) :
    run cfg s ops = s := by
  induction ops with
  | nil => rfl
  | cons op ops ih =>
    have hop := hops op (List.mem_cons_self op ops)
    have hstep : step cfg s op = s := by
      cases op with
      | usingInterrupt n => exact usingInterrupt_overflow cfg s n (by omega)
      | notUsingInterrupt n => exact notUsingInterrupt_overflow cfg s n h8
      | begin => simp [Op.isTracker] at hop
      | end_ => simp [Op.isTracker] at hop
      | setClockDivider v => simp [Op.isTracker] at hop
      | setDataMode v => simp [Op.isTracker] at hop
    rw [run_cons, hstep]
    exact ih (fun o ho => hops o (List.mem_cons_of_mem op ho))

/-- C5: in a state with mode 8, `usingInterrupt(pin)` and
`notUsingInterrupt(pin)` leave the mode at 8 and the three masks unchanged, for
every pin number; and after any sequence of tracker calls made from such a
state the mode is still 8 and the masks are unchanged. -/
theorem overflow_sticky (cfg : Config) (s : SPIClass) (h8 : s.interruptMode = 8) :
    (∀ pin, (s.usingInterrupt cfg pin).interruptMode = 8 ∧
      ∀ i, (s.usingInterrupt cfg pin).interruptMask i = s.interruptMask i) ∧
    (∀ pin, (s.notUsingInterrupt cfg pin).interruptMode = 8 ∧
      ∀ i, (s.notUsingInterrupt cfg pin).interruptMask i = s.interruptMask i) ∧
    (∀ ops : List Op, (∀ op ∈ ops, op.isTracker = true) →
      (run cfg s ops).interruptMode = 8 ∧
      ∀ i, (run cfg s ops).interruptMask i = s.interruptMask i) := by
  refine ⟨?_, ?_, ?_⟩
  · intro pin
    rw [usingInterrupt_overflow cfg s pin (by omega)]
    exact ⟨h8, fun _ => rfl⟩
  · intro pin
    rw [notUsingInterrupt_overflow cfg s pin h8]
    exact ⟨h8, fun _ => rfl⟩
  · intro ops hops
    rw [run_tracker_overflow cfg ops s h8 hops]
    exact ⟨h8, fun _ => rfl⟩

theorem overflow_sticky_witness :
    (run sampleConfig constructed [.begin, .usingInterrupt 3, .usingInterrupt 200]).interruptMode
      = 8 ∧
    ((run sampleConfig constructed [.begin, .usingInterrupt 3, .usingInterrupt 200]
        ).notUsingInterrupt sampleConfig 3).interruptMode = 8 ∧
    ((run sampleConfig constructed [.begin, .usingInterrupt 3, .usingInterrupt 200]
        ).notUsingInterrupt sampleConfig 3).interruptMask 0 = 8 :=
  ⟨by decide,
    ((overflow_sticky sampleConfig
      (run sampleConfig constructed [.begin, .usingInterrupt 3, .usingInterrupt 200])
      (by decide)).2.1 3).1,
    by decide⟩

/-! ## Register fields -/

/-- C6: for every 8-bit `v` and every prior state, after `setClockDivider(v)`
the register `BAUDR` holds exactly `v & SPI_CLOCK_MASK` (registers are at
least 8 bits wide); the operation is total, so no value is rejected. -/
theorem setClockDivider_BAUDR (cfg : Config) (s : SPIClass) (v : Nat)
    (hv : v < 256) (hw : 8 ≤ cfg.regBits) :
    (s.setClockDivider cfg v).BAUDR = v &&& cfg.SPI_CLOCK_MASK := by
  have h1 : v &&& cfg.SPI_CLOCK_MASK ≤ v := Nat.and_le_left
  have h2 : 2 ^ 8 ≤ 2 ^ cfg.regBits := Nat.pow_le_pow_right (by decide) hw
  have h3 : v &&& cfg.SPI_CLOCK_MASK < 2 ^ cfg.regBits := by omega
  show trunc cfg.regBits (v &&& cfg.SPI_CLOCK_MASK) = v &&& cfg.SPI_CLOCK_MASK
  exact trunc_of_lt h3

theorem setClockDivider_BAUDR_witness :
    (255 : Nat) < 256 ∧ 8 ≤ sampleConfig.regBits ∧
    (constructed.setClockDivider sampleConfig 255).BAUDR = 255 &&& sampleConfig.SPI_CLOCK_MASK ∧
    (constructed.setClockDivider sampleConfig 255).BAUDR = 254 :=
  ⟨by decide, by decide,
    setClockDivider_BAUDR sampleConfig constructed 255 (by decide) (by decide), by decide⟩

theorem setDataMode_CTRL0 (cfg : Config) (s : SPIClass) (v : Nat) :
    (s.setDataMode cfg v).CTRL0 = trunc cfg.regBits
      ((s.CTRL0 &&& complement cfg.regBits cfg.SPI_MODE_MASK)
        ||| ((v <<< cfg.SPI_MODE_SHIFT) &&& cfg.SPI_MODE_MASK)) := rfl

theorem setDataMode_testBit_outside (cfg : Config) (s : SPIClass) (v i : Nat)
    (hc : s.CTRL0 < 2 ^ cfg.regBits) (hi : cfg.SPI_MODE_MASK.testBit i = false) :
    (s.setDataMode cfg v).CTRL0.testBit i = s.CTRL0.testBit i := by
  rw [setDataMode_CTRL0]
  simp only [testBit_trunc, Nat.testBit_or, Nat.testBit_and, testBit_complement, hi]
  cases hb : s.CTRL0.testBit i
  · simp
  · have := lt_of_testBit hc hb
    simp [this]

/-- C7: for every value `v` and every prior (register-width) value of `CTRL0`,
`setDataMode(v)` leaves every bit of `CTRL0` outside `SPI_MODE_MASK` unchanged;
in particular any field whose mask is disjoint from `SPI_MODE_MASK`, such as
the frame-size field, reads back as before. -/
theorem setDataMode_preserves_outside (cfg : Config) (s : SPIClass) (v : Nat)
    (hc : s.CTRL0 < 2 ^ cfg.regBits) :
    (∀ i, cfg.SPI_MODE_MASK.testBit i = false →
      (s.setDataMode cfg v).CTRL0.testBit i = s.CTRL0.testBit i) ∧
    (∀ fieldMask, fieldMask &&& cfg.SPI_MODE_MASK = 0 →
      (s.setDataMode cfg v).CTRL0 &&& fieldMask = s.CTRL0 &&& fieldMask) := by
  refine ⟨fun i hi => setDataMode_testBit_outside cfg s v i hc hi, ?_⟩
  intro fieldMask hdis
  apply Nat.eq_of_testBit_eq
  intro i
  rw [Nat.testBit_and, Nat.testBit_and]
  cases hf : fieldMask.testBit i
  · simp
  · have hm : cfg.SPI_MODE_MASK.testBit i = false := by
      have := and_of_disjoint_testBit hdis i
      rw [hf] at this
      simpa using this
    rw [setDataMode_testBit_outside cfg s v i hc hm]

theorem setDataMode_preserves_outside_witness :
    (run sampleConfig constructed [.begin]).CTRL0 < 2 ^ sampleConfig.regBits ∧
    ((run sampleConfig constructed [.begin]).setDataMode sampleConfig 3).CTRL0 = 0xC7 ∧
    ((run sampleConfig constructed [.begin]).setDataMode sampleConfig 3).CTRL0 &&& 0x0F
      = (run sampleConfig constructed [.begin]).CTRL0 &&& 0x0F :=
  ⟨by decide, by decide,
    (setDataMode_preserves_outside sampleConfig (run sampleConfig constructed [.begin]) 3
      (by decide)).2 0x0F (by decide)⟩

/-! ## Pins that are out of range or on an unknown port -/

/-- C9: for every tracker state with mode other than 8 and every pin that is
out of range or whose port is none of the three recognised groups,
`usingInterrupt(pin)` sets the mode to 8 and leaves the three masks unchanged.
(The mode is in its range 0..8, as in every state the driver reaches.) -/
theorem usingInterrupt_escalates (cfg : Config) (s : SPIClass) (pin : Nat)
    (hm : s.interruptMode ≠ 8) (hrange : s.interruptMode ≤ 8)
    (hp : cfg.NUM_DIGITAL_PINS ≤ pin ∨ pinGroup cfg pin = none) :
    (s.usingInterrupt cfg pin).interruptMode = 8 ∧
    ∀ i, (s.usingInterrupt cfg pin).interruptMask i = s.interruptMask i := by
  have hlt : s.interruptMode < 8 := by omega
  rw [usingInterrupt_miss cfg s pin hlt hp]
  exact ⟨rfl, fun i => by unfold SPIClass.interruptMask; rfl⟩

theorem usingInterrupt_escalates_witness :
    (run sampleConfig constructed [.begin, .usingInterrupt 3]).interruptMode ≠ 8 ∧
    (run sampleConfig constructed [.begin, .usingInterrupt 3]).interruptMode ≤ 8 ∧
    pinGroup sampleConfig 9 = none ∧
    ((run sampleConfig constructed [.begin, .usingInterrupt 3]).usingInterrupt
        sampleConfig 9).interruptMode = 8 ∧
    ∀ i, ((run sampleConfig constructed [.begin, .usingInterrupt 3]).usingInterrupt
        sampleConfig 9).interruptMask i
      = (run sampleConfig constructed [.begin, .usingInterrupt 3]).interruptMask i :=
  ⟨by decide, by decide, by decide,
    usingInterrupt_escalates sampleConfig
      (run sampleConfig constructed [.begin, .usingInterrupt 3]) 9 (by decide) (by decide)
      (Or.inr (by decide))⟩

/-- C10: for every tracker state and every pin that is out of range, or in
range on a port that is none of the three recognised groups,
`notUsingInterrupt(pin)` leaves the mode and the three masks (indeed the whole
state) unchanged. -/
theorem notUsingInterrupt_ignores (cfg : Config) (s : SPIClass) (pin : Nat)
    (hp : cfg.NUM_DIGITAL_PINS ≤ pin ∨
      (pin < cfg.NUM_DIGITAL_PINS ∧ pinGroup cfg pin = none)) :
    (s.notUsingInterrupt cfg pin).interruptMode = s.interruptMode ∧
    (∀ i, (s.notUsingInterrupt cfg pin).interruptMask i = s.interruptMask i) ∧
    s.notUsingInterrupt cfg pin = s := by
  have h : s.notUsingInterrupt cfg pin = s :=
    notUsingInterrupt_miss cfg s pin (hp.imp id (fun h => h.2))
  rw [h]
  exact ⟨rfl, fun _ => rfl, rfl⟩

theorem notUsingInterrupt_ignores_witness :
    sampleConfig.NUM_DIGITAL_PINS ≤ 200 ∧
    ((run sampleConfig constructed [.begin, .usingInterrupt 3]).notUsingInterrupt
        sampleConfig 200).interruptMode = 1 ∧
    ((run sampleConfig constructed [.begin, .usingInterrupt 3]).usingInterrupt
        sampleConfig 200).interruptMode = 8 :=
  ⟨by decide,
    (notUsingInterrupt_ignores sampleConfig
      (run sampleConfig constructed [.begin, .usingInterrupt 3]) 200
      (Or.inl (by decide))).1.trans (by decide),
    by decide⟩

/-! ## The tracker invariant -/

theorem trunc_or_two_pow_ne_zero {w x b : Nat} (hb : b < w) : trunc w (x ||| 2 ^ b) ≠ 0 := by
  intro h
  have := congrArg (fun z => Nat.testBit z b) h
  simp [testBit_trunc, hb] at this

theorem trunc_and_eq_zero_of_zero {w x c : Nat} (hx : x = 0) : trunc w (x &&& c) = 0 := by
  subst hx
  simp [trunc]

theorem usingInterrupt_keeps_inv (cfg : Config)
    (htab : ∀ pin g, pin < cfg.NUM_DIGITAL_PINS → pinGroup cfg pin = some g →
      pinBit cfg pin < cfg.maskBits)
    (s : SPIClass) (pin : Nat)
    (hinv : s.interruptMode = 8 ∨ (s.interruptMode < 8 ∧
      ∀ i, i < 3 → (s.interruptMode.testBit i = true ↔ s.interruptMask i ≠ 0))) :
    (s.usingInterrupt cfg pin).interruptMode = 8 ∨
      ((s.usingInterrupt cfg pin).interruptMode < 8 ∧
        ∀ i, i < 3 → ((s.usingInterrupt cfg pin).interruptMode.testBit i = true ↔
          (s.usingInterrupt cfg pin).interruptMask i ≠ 0)) := by
  rcases hinv with h8 | ⟨hlt, hbits⟩
  · rw [usingInterrupt_overflow cfg s pin (by omega)]
    exact Or.inl h8
  · by_cases hr : pin < cfg.NUM_DIGITAL_PINS
    · cases hg : pinGroup cfg pin with
      | none =>
        rw [usingInterrupt_miss cfg s pin hlt (Or.inr hg)]
        exact Or.inl rfl
      | some g =>
        obtain ⟨umode, umask, uother⟩ := usingInterrupt_hit cfg s pin g hlt hr hg
        refine Or.inr ⟨?_, ?_⟩
        · rw [umode]
          exact or_two_pow_lt_eight hlt (pinGroup_lt hg)
        · intro i hi
          rw [umode, Nat.testBit_or, Nat.testBit_two_pow]
          by_cases hgi : g = i
          · subst hgi
            rw [umask]
            simp only [decide_True, Bool.or_true, true_iff]
            exact trunc_or_two_pow_ne_zero (htab pin g hr hg)
          · rw [uother i hi (fun h => hgi h.symm)]
            simp only [hgi, decide_False, Bool.or_false]
            exact hbits i hi
    · rw [usingInterrupt_miss cfg s pin hlt (Or.inl (by omega))]
      exact Or.inl rfl

theorem notUsingInterrupt_keeps_inv (cfg : Config) (hmb : 3 ≤ cfg.modeBits)
    (s : SPIClass) (pin : Nat)
    (hinv : s.interruptMode = 8 ∨ (s.interruptMode < 8 ∧
      ∀ i, i < 3 → (s.interruptMode.testBit i = true ↔ s.interruptMask i ≠ 0))) :
    (s.notUsingInterrupt cfg pin).interruptMode = 8 ∨
      ((s.notUsingInterrupt cfg pin).interruptMode < 8 ∧
        ∀ i, i < 3 → ((s.notUsingInterrupt cfg pin).interruptMode.testBit i = true ↔
          (s.notUsingInterrupt cfg pin).interruptMask i ≠ 0)) := by
  rcases hinv with h8 | ⟨hlt, hbits⟩
  · rw [notUsingInterrupt_overflow cfg s pin h8]
    exact Or.inl h8
  · by_cases hr : pin < cfg.NUM_DIGITAL_PINS
    · cases hg : pinGroup cfg pin with
      | none =>
        rw [notUsingInterrupt_miss cfg s pin (Or.inr hg)]
        exact Or.inr ⟨hlt, hbits⟩
      | some g =>
        obtain ⟨nmask, nmode, nother⟩ := notUsingInterrupt_hit cfg s pin g (by omega) hr hg
        have hg3 := pinGroup_lt hg
        by_cases hz : (s.notUsingInterrupt cfg pin).interruptMask g = 0
        · rw [if_pos hz] at nmode
          refine Or.inr ⟨?_, ?_⟩
          · rw [nmode]
            exact Nat.lt_of_le_of_lt Nat.and_le_left hlt
          · intro i hi
            rw [nmode, Nat.testBit_and, testBit_complement, Nat.testBit_two_pow]
            by_cases hgi : g = i
            · subst hgi
              simp [hz]
            · rw [nother i hi (fun h => hgi h.symm)]
              have him : i < cfg.modeBits := by omega
              simp only [him, hgi, decide_True, decide_False, Bool.not_false, Bool.and_true]
              exact hbits i hi
        · rw [if_neg hz] at nmode
          refine Or.inr ⟨by rw [nmode]; exact hlt, ?_⟩
          intro i hi
          rw [nmode]
          by_cases hgi : g = i
          · subst hgi
            have hnz : s.interruptMask g ≠ 0 := by
              intro h0
              apply hz
              rw [nmask]
              exact trunc_and_eq_zero_of_zero h0
            exact ⟨fun _ => hz, fun _ => (hbits g hi).2 hnz⟩
          · rw [nother i hi (fun h => hgi h.symm)]
            exact hbits i hi
    · rw [notUsingInterrupt_miss cfg s pin (Or.inl (by omega))]
      exact Or.inr ⟨hlt, hbits⟩

theorem run_tracker_keeps_inv (cfg : Config) (hmb : 3 ≤ cfg.modeBits)
    (htab : ∀ pin g, pin < cfg.NUM_DIGITAL_PINS → pinGroup cfg pin = some g →
      pinBit cfg pin < cfg.maskBits)
    (ops : List Op) (s : SPIClass) (hops : ∀ op ∈ ops, op.isTracker = true)
    (hinv : s.interruptMode = 8 ∨ (s.interruptMode < 8 ∧
      ∀ i, i < 3 → (s.interruptMode.testBit i = true ↔ s.interruptMask i ≠ 0))) :
    (run cfg s ops).interruptMode = 8 ∨ ((run cfg s ops).interruptMode < 8 ∧
      ∀ i, i < 3 → ((run cfg s ops).interruptMode.testBit i = true ↔
        (run cfg s ops).interruptMask i ≠ 0)) := by
  induction ops generalizing s with
  | nil => exact hinv
  | cons op ops ih =>
    have hop := hops op (List.mem_cons_self op ops)
    rw [run_cons]
    apply ih _ (fun o ho => hops o (List.mem_cons_of_mem op ho))
    cases op with
    | usingInterrupt n => exact usingInterrupt_keeps_inv cfg htab s n hinv
    | notUsingInterrupt n => exact notUsingInterrupt_keeps_inv cfg hmb s n hinv
    | begin => simp [Op.isTracker] at hop
    | end_ => simp [Op.isTracker] at hop
    | setClockDivider v => simp [Op.isTracker] at hop
    | setDataMode v => simp [Op.isTracker] at hop

theorem samplePins_bits (pin g : Nat) (hr : pin < sampleConfig.NUM_DIGITAL_PINS)
    (_hg : pinGroup sampleConfig pin = some g) : pinBit sampleConfig pin < sampleConfig.maskBits := by
  have h21 : pin < 21 := hr
  show (samplePins pin).ulGPIOId < 32
  unfold samplePins
  split_ifs <;> simp only [] <;> omega

/-- C8, amended: in every state reached from the freshly reset tracker (mode
0, all masks 0) by any sequence of `usingInterrupt` and `notUsingInterrupt`
calls, the mode is 8 or, for each group `i` in {0,1,2}, bit `i` of the mode is
set if and only if `interruptMask[i]` is nonzero.  (The pin table gives every
classified in-range pin a bit index below the mask width, and the mode has at
least 3 bits.) -/
theorem tracker_invariant (cfg : Config) (hmb : 3 ≤ cfg.modeBits)
    (htab : ∀ pin g, pin < cfg.NUM_DIGITAL_PINS → pinGroup cfg pin = some g →
      pinBit cfg pin < cfg.maskBits)
    (s0 : SPIClass) (hm0 : s0.interruptMode = 0) (hk0 : ∀ i, s0.interruptMask i = 0)
    (ops : List Op) (hops : ∀ op ∈ ops, op.isTracker = true) :
    (run cfg s0 ops).interruptMode = 8 ∨
    ∀ i, i < 3 → ((run cfg s0 ops).interruptMode.testBit i = true ↔
      (run cfg s0 ops).interruptMask i ≠ 0) := by
  have hinit : s0.interruptMode = 8 ∨ (s0.interruptMode < 8 ∧
      ∀ i, i < 3 → (s0.interruptMode.testBit i = true ↔ s0.interruptMask i ≠ 0)) := by
    refine Or.inr ⟨by omega, fun i _ => ?_⟩
    rw [hm0, hk0 i]
    simp
  rcases run_tracker_keeps_inv cfg hmb htab ops s0 hops hinit with h | h
  · exact Or.inl h
  · exact Or.inr h.2

theorem tracker_invariant_witness :
    3 ≤ sampleConfig.modeBits ∧ constructed.interruptMode = 0 ∧
    (run sampleConfig constructed
        [.usingInterrupt 3, .usingInterrupt 5, .usingInterrupt 7, .notUsingInterrupt 5]
      ).interruptMode = 5 ∧
    ((run sampleConfig constructed
        [.usingInterrupt 3, .usingInterrupt 5, .usingInterrupt 7, .notUsingInterrupt 5]
      ).interruptMode = 8 ∨
    ∀ i, i < 3 → ((run sampleConfig constructed
        [.usingInterrupt 3, .usingInterrupt 5, .usingInterrupt 7, .notUsingInterrupt 5]
      ).interruptMode.testBit i = true ↔
      (run sampleConfig constructed
        [.usingInterrupt 3, .usingInterrupt 5, .usingInterrupt 7, .notUsingInterrupt 5]
      ).interruptMask i ≠ 0)) :=
  ⟨by decide, rfl, by decide,
    tracker_invariant sampleConfig (by decide) samplePins_bits constructed rfl
      (fun i => by unfold SPIClass.interruptMask; split <;> rfl) _ (by decide)⟩

/-- C8 as stated fails once the tracker overflows: after `usingInterrupt(3)`
(group 0, bit 3) and `usingInterrupt(200)` (out of range) the mode is 8, whose
bit 0 is clear, while `interruptMask[0]` is 8. -/
theorem tracker_invariant_fails :
    constructed.interruptMode = 0 ∧ constructed.interruptMask 0 = 0 ∧
    constructed.interruptMask 1 = 0 ∧ constructed.interruptMask 2 = 0 ∧
    (run sampleConfig constructed [.usingInterrupt 3, .usingInterrupt 200]).interruptMode = 8 ∧
    (run sampleConfig constructed
      [.usingInterrupt 3, .usingInterrupt 200]).interruptMode.testBit 0 = false ∧
    (run sampleConfig constructed [.usingInterrupt 3, .usingInterrupt 200]).interruptMask 0 ≠ 0 := by
  decide

/-! ## What each operation leaves alone -/

theorem usingInterrupt_frame (cfg : Config) (s : SPIClass) (n : Nat) :
    s.usingInterrupt cfg n =
      { s with
        interruptMode := (s.usingInterrupt cfg n).interruptMode
        interruptMask0 := (s.usingInterrupt cfg n).interruptMask0
        interruptMask1 := (s.usingInterrupt cfg n).interruptMask1
        interruptMask2 := (s.usingInterrupt cfg n).interruptMask2 } := by
  unfold SPIClass.usingInterrupt
  dsimp only
  split_ifs <;> rfl

theorem notUsingInterrupt_frame (cfg : Config) (s : SPIClass) (n : Nat) :
    s.notUsingInterrupt cfg n =
      { s with
        interruptMode := (s.notUsingInterrupt cfg n).interruptMode
        interruptMask0 := (s.notUsingInterrupt cfg n).interruptMask0
        interruptMask1 := (s.notUsingInterrupt cfg n).interruptMask1
        interruptMask2 := (s.notUsingInterrupt cfg n).interruptMask2 } := by
  unfold SPIClass.notUsingInterrupt
  dsimp only
  split_ifs <;> rfl

theorem end_frame (cfg : Config) (s : SPIClass) :
    s.end_ cfg =
      { s with
        initialized := s.initialized - 1
        SPIEN := (s.end_ cfg).SPIEN
        PERIPH_CLK_GATE_CTRL := (s.end_ cfg).PERIPH_CLK_GATE_CTRL
        inTransactionFlag := (s.end_ cfg).inTransactionFlag } := by
  unfold SPIClass.end_
  by_cases h : s.initialized = 0
  · cases hl : cfg.SPI_TRANSACTION_MISMATCH_LED <;> simp [h]
  · by_cases h2 : s.initialized - 1 = 0
    · cases hl : cfg.SPI_TRANSACTION_MISMATCH_LED <;> simp [h, h2]
    · simp [h, h2]

theorem end_interruptMode (cfg : Config) (s : SPIClass) :
    (s.end_ cfg).interruptMode = s.interruptMode := by
  rw [end_frame]

theorem end_interruptMask (cfg : Config) (s : SPIClass) (i : Nat) :
    (s.end_ cfg).interruptMask i = s.interruptMask i := by
  rw [end_frame]
  rfl

theorem ext_interruptMask (s t : SPIClass) (h : ∀ i, i < 3 → s.interruptMask i = t.interruptMask i)
    (i : Nat) : s.interruptMask i = t.interruptMask i := by
  unfold SPIClass.interruptMask
  split
  · exact h 0 (by decide)
  · exact h 1 (by decide)
  · exact h 2 (by decide)

/-! ## The documented scenario -/

theorem trunc_one_le (w : Nat) : trunc w 1 ≤ 1 := by
  unfold trunc
  exact Nat.mod_le 1 _

theorem trunc_eight {w : Nat} (h : 3 < w) : trunc w (0 ||| 2 ^ 3) = 8 := by
  have h4 : 2 ^ 4 ≤ 2 ^ w := Nat.pow_le_pow_right (by decide) h
  have : (0 ||| 2 ^ 3 : Nat) = 8 := by decide
  rw [this]
  exact trunc_of_lt (by omega)

/-- C11: with a pin table in which `pinA` is bit 3 of group 0 and `invalidPin`
is out of range, starting from reference count 0: after `begin()` and
`usingInterrupt(pinA)` the mode is 1 and `interruptMask[0]` is 8; after
`usingInterrupt(invalidPin)` the mode is 8 and the masks are unchanged; after
`notUsingInterrupt(pinA)` the mode is still 8; after `end()` the controller
enable bit is clear and the mode and masks are as before `end()`.  (The mask
has a bit 3.) -/
theorem documented_scenario (cfg : Config) (hE : cfg.EnableBit) (hW : 3 < cfg.maskBits)
    (s : SPIClass) (h0 : s.initialized = 0) (pinA invalidPin : Nat)
    (hA : pinA < cfg.NUM_DIGITAL_PINS) (hgA : pinGroup cfg pinA = some 0)
    (hbA : pinBit cfg pinA = 3) (hbad : cfg.NUM_DIGITAL_PINS ≤ invalidPin) :
    ((s.begin cfg).usingInterrupt cfg pinA).interruptMode = 1 ∧
    ((s.begin cfg).usingInterrupt cfg pinA).interruptMask 0 = 8 ∧
    (((s.begin cfg).usingInterrupt cfg pinA).usingInterrupt cfg invalidPin).interruptMode = 8 ∧
    (∀ i, (((s.begin cfg).usingInterrupt cfg pinA).usingInterrupt cfg invalidPin).interruptMask i
      = ((s.begin cfg).usingInterrupt cfg pinA).interruptMask i) ∧
    ((((s.begin cfg).usingInterrupt cfg pinA).usingInterrupt cfg invalidPin).notUsingInterrupt
      cfg pinA).interruptMode = 8 ∧
    ¬ (((((s.begin cfg).usingInterrupt cfg pinA).usingInterrupt cfg invalidPin).notUsingInterrupt
      cfg pinA).end_ cfg).enabled cfg ∧
    (((((s.begin cfg).usingInterrupt cfg pinA).usingInterrupt cfg invalidPin).notUsingInterrupt
      cfg pinA).end_ cfg).interruptMode
      = ((((s.begin cfg).usingInterrupt cfg pinA).usingInterrupt cfg invalidPin).notUsingInterrupt
        cfg pinA).interruptMode ∧
    (∀ i, (((((s.begin cfg).usingInterrupt cfg pinA).usingInterrupt cfg
        invalidPin).notUsingInterrupt cfg pinA).end_ cfg).interruptMask i
      = ((((s.begin cfg).usingInterrupt cfg pinA).usingInterrupt cfg
        invalidPin).notUsingInterrupt cfg pinA).interruptMask i) := by
  have hb := begin_of_zero cfg s h0
  have hbm : (s.begin cfg).interruptMode = 0 := by rw [hb]
  have hbk : (s.begin cfg).interruptMask 0 = 0 := by rw [hb]; rfl
  have hbi : (s.begin cfg).initialized = trunc cfg.cntBits 1 := by rw [hb]
  obtain ⟨umode, umask, _⟩ :=
    usingInterrupt_hit cfg (s.begin cfg) pinA 0 (by omega) hA hgA
  have h1m : ((s.begin cfg).usingInterrupt cfg pinA).interruptMode = 1 := by
    rw [umode, hbm]
    decide
  have h1k : ((s.begin cfg).usingInterrupt cfg pinA).interruptMask 0 = 8 := by
    rw [umask, hbk, hbA]
    exact trunc_eight hW
  have h2 := usingInterrupt_miss cfg ((s.begin cfg).usingInterrupt cfg pinA) invalidPin
    (by omega) (Or.inl hbad)
  have h2m : (((s.begin cfg).usingInterrupt cfg pinA).usingInterrupt cfg
      invalidPin).interruptMode = 8 := by rw [h2]
  have h3 := notUsingInterrupt_overflow cfg
    (((s.begin cfg).usingInterrupt cfg pinA).usingInterrupt cfg invalidPin) pinA h2m
  have hcnt : ((((s.begin cfg).usingInterrupt cfg pinA).usingInterrupt cfg
      invalidPin).notUsingInterrupt cfg pinA).initialized ≤ 1 := by
    rw [notUsingInterrupt_initialized, usingInterrupt_initialized, usingInterrupt_initialized, hbi]
    exact trunc_one_le _
  refine ⟨h1m, h1k, h2m, ?_, ?_, end_disabled_of_le_one hE _ hcnt, end_interruptMode cfg _,
    fun i => end_interruptMask cfg _ i⟩
  · intro i
    rw [h2]
    rfl
  · rw [h3]
    exact h2m

theorem documented_scenario_witness :
    sampleConfig.EnableBit ∧ 3 < sampleConfig.maskBits ∧ constructed.initialized = 0 ∧
    pinGroup sampleConfig 3 = some 0 ∧ pinBit sampleConfig 3 = 3 ∧
    sampleConfig.NUM_DIGITAL_PINS ≤ 200 ∧
    (run sampleConfig constructed [.begin, .usingInterrupt 3]).interruptMode = 1 ∧
    (run sampleConfig constructed [.begin, .usingInterrupt 3]).interruptMask 0 = 8 ∧
    (run sampleConfig constructed
      [.begin, .usingInterrupt 3, .usingInterrupt 200, .notUsingInterrupt 3]).interruptMode = 8 ∧
    ¬ (run sampleConfig constructed
      [.begin, .usingInterrupt 3, .usingInterrupt 200, .notUsingInterrupt 3, .end_]).enabled
      sampleConfig :=
  have h := documented_scenario sampleConfig (by decide) (by decide) constructed rfl 3 200
    (by decide) (by decide) (by decide) (by decide)
  ⟨by decide, by decide, rfl, by decide, by decide, by decide, h.1, h.2.1, h.2.2.2.2.1,
    h.2.2.2.2.2.1⟩

/-! ## First and later activations -/

theorem or_and_self_of_lt {w x e : Nat} (he : e < 2 ^ w) : trunc w (x ||| e) &&& e = e := by
  apply Nat.eq_of_testBit_eq
  intro i
  rw [Nat.testBit_and, testBit_trunc, Nat.testBit_or]
  cases hb : e.testBit i
  · simp
  · have := lt_of_testBit he hb
    simp [this]

/-- C12: for every state with reference count 0, after `begin()` the reference
count is 1, the mode and the three masks are 0, `frameSize` is `SPI_8_BIT`,
`lsbFirst` is false, `BAUDR` is `SPI_CLOCK_DIV4`, `CTRL0` is
`(SPI_8_BIT << SPI_FSIZE_SHIFT) | (SPI_MODE0 << SPI_MODE_SHIFT)`, `IMR` is
`SPI_DISABLE_INT`, `SER` is 1, the bits `enable_val` are set in the
clock-gating register and the controller enable bit is set.  (The stored
constants fit their locations.) -/
theorem begin_first (cfg : Config) (hE : cfg.EnableBit) (hfit : cfg.ConstantsFit)
    (s : SPIClass) (h0 : s.initialized = 0) :
    (s.begin cfg).initialized = 1 ∧
    (s.begin cfg).interruptMode = 0 ∧
    (s.begin cfg).interruptMask 0 = 0 ∧
    (s.begin cfg).interruptMask 1 = 0 ∧
    (s.begin cfg).interruptMask 2 = 0 ∧
    (s.begin cfg).frameSize = cfg.SPI_8_BIT ∧
    (s.begin cfg).lsbFirst = false ∧
    (s.begin cfg).BAUDR = cfg.SPI_CLOCK_DIV4 ∧
    (s.begin cfg).CTRL0
      = (cfg.SPI_8_BIT <<< cfg.SPI_FSIZE_SHIFT) ||| (cfg.SPI_MODE0 <<< cfg.SPI_MODE_SHIFT) ∧
    (s.begin cfg).IMR = cfg.SPI_DISABLE_INT ∧
    (s.begin cfg).SER = 1 ∧
    (s.begin cfg).PERIPH_CLK_GATE_CTRL &&& cfg.enable_val = cfg.enable_val ∧
    (s.begin cfg).enabled cfg := by
  obtain ⟨hc, hr, hdiv, hctrl, himr, hev⟩ := hfit
  have hc1 : (1 : Nat) < 2 ^ cfg.cntBits := by
    have : 2 ^ 1 ≤ 2 ^ cfg.cntBits := Nat.pow_le_pow_right (by decide) hc
    omega
  have hr1 : (1 : Nat) < 2 ^ cfg.regBits := by
    have : 2 ^ 1 ≤ 2 ^ cfg.regBits := Nat.pow_le_pow_right (by decide) hr
    omega
  have hen := begin_enabled_of_zero hE s h0
  rw [begin_of_zero cfg s h0] at hen ⊢
  exact ⟨trunc_of_lt hc1, rfl, rfl, rfl, rfl, rfl, rfl, trunc_of_lt hdiv, trunc_of_lt hctrl,
    trunc_of_lt himr, trunc_of_lt hr1, or_and_self_of_lt hev, hen⟩

theorem begin_first_witness :
    sampleConfig.EnableBit ∧ sampleConfig.ConstantsFit ∧
    ({ constructed with interruptMode := 8, interruptMask0 := 8, CTRL0 := 0xC7 }
      : SPIClass).initialized = 0 ∧
    (({ constructed with interruptMode := 8, interruptMask0 := 8, CTRL0 := 0xC7 }
      : SPIClass).begin sampleConfig).initialized = 1 ∧
    (({ constructed with interruptMode := 8, interruptMask0 := 8, CTRL0 := 0xC7 }
      : SPIClass).begin sampleConfig).interruptMode = 0 :=
  have h := begin_first sampleConfig (by decide) (by decide)
    ({ constructed with interruptMode := 8, interruptMask0 := 8, CTRL0 := 0xC7 } : SPIClass) rfl
  ⟨by decide, by decide, rfl, h.1, h.2.1⟩

/-- C13, amended: for every state with reference count `c > 0`, `begin()`
changes nothing but the reference count, which becomes `(c + 1) mod 2 ^ cntBits`
(that is `c + 1` unless the counter wraps); every register, the mode and masks,
`frameSize`, `lsbFirst` and the pin state are unchanged. -/
theorem begin_again (cfg : Config) (s : SPIClass) (hpos : 0 < s.initialized) :
    s.begin cfg = { s with initialized := (s.initialized + 1) % 2 ^ cfg.cntBits } ∧
    (s.initialized + 1 < 2 ^ cfg.cntBits → (s.begin cfg).initialized = s.initialized + 1) := by
  have h := begin_of_pos cfg s (by omega)
  refine ⟨h, fun hlt => ?_⟩
  rw [begin_initialized]
  exact trunc_of_lt hlt

theorem begin_again_witness :
    0 < (run sampleConfig constructed [.begin, .usingInterrupt 3]).initialized ∧
    (run sampleConfig constructed [.begin, .usingInterrupt 3]).begin sampleConfig
      = { run sampleConfig constructed [.begin, .usingInterrupt 3] with initialized := 2 } :=
  ⟨by decide,
    (begin_again sampleConfig (run sampleConfig constructed [.begin, .usingInterrupt 3])
      (by decide)).1⟩

/-- C13 as stated fails when the counter is at its maximum: after 255 calls of
`begin` an 8-bit counter holds 255, and one more `begin` makes it 0, not 256. -/
theorem begin_again_wraps :
    0 < ((SPIClass.begin sampleConfig)^[255] constructed).initialized ∧
    (SPIClass.begin sampleConfig ((SPIClass.begin sampleConfig)^[255] constructed)).initialized
      ≠ ((SPIClass.begin sampleConfig)^[255] constructed).initialized + 1 := by
  have h := (begin_iterate sampleConfig_enableBit constructed rfl 255 (by decide) (by decide)).1
  rw [begin_initialized, h]
  decide

/-! ## Deactivation while a reference is held -/

theorem exact_mask_bit {w d e : Nat} (h : trunc w d = complement w e) (i : Nat) (hi : i < w) :
    d.testBit i = !e.testBit i := by
  have := congrArg (fun z => Nat.testBit z i) h
  simpa [testBit_trunc, testBit_complement, hi] using this

theorem and_exact_clears {w d e : Nat} (h : trunc w d = complement w e) (x : Nat) :
    trunc w (x &&& d) &&& e = 0 := by
  apply Nat.eq_of_testBit_eq
  intro i
  rw [Nat.testBit_and, testBit_trunc, Nat.testBit_and, Nat.zero_testBit]
  by_cases hi : i < w
  · rw [exact_mask_bit h i hi]
    cases e.testBit i <;> simp
  · simp [hi]

theorem and_exact_keeps {w d e x : Nat} (h : trunc w d = complement w e) (hx : x < 2 ^ w)
    (i : Nat) (he : e.testBit i = false) :
    (trunc w (x &&& d)).testBit i = x.testBit i := by
  rw [testBit_trunc, Nat.testBit_and]
  by_cases hi : i < w
  · rw [exact_mask_bit h i hi, he]
    simp [hi]
  · have hxi : x.testBit i = false := by
      cases hb : x.testBit i
      · rfl
      · exact absurd (lt_of_testBit hx hb) hi
    simp [hi, hxi]

theorem and_disjoint_clears {w d e : Nat} (h : d &&& e = 0) (x : Nat) :
    trunc w (x &&& d) &&& e = 0 := by
  apply Nat.eq_of_testBit_eq
  intro i
  rw [Nat.testBit_and, testBit_trunc, Nat.testBit_and, Nat.zero_testBit]
  have := and_of_disjoint_testBit h i
  cases h1 : d.testBit i <;> cases h2 : e.testBit i <;> simp_all

theorem testBit_of_and_eq {x e : Nat} (h : x &&& e = x) (i : Nat) (he : e.testBit i = false) :
    x.testBit i = false := by
  have := congrArg (fun z => Nat.testBit z i) h
  simp only [Nat.testBit_and, he, Bool.and_false] at this
  exact this.symm

theorem end_of_one (cfg : Config) (s : SPIClass) (h1 : s.initialized = 1) :
    s.end_ cfg =
      { s with
        initialized := 0
        SPIEN := trunc cfg.regBits (s.SPIEN &&& cfg.SPI_DISABLE)
        PERIPH_CLK_GATE_CTRL := trunc cfg.regBits (s.PERIPH_CLK_GATE_CTRL &&& cfg.disable_val)
        inTransactionFlag :=
          if cfg.SPI_TRANSACTION_MISMATCH_LED then 0 else s.inTransactionFlag } := by
  unfold SPIClass.end_
  cases hl : cfg.SPI_TRANSACTION_MISMATCH_LED <;> simp [h1]

/-- C14: for every state with reference count `c > 0`, `end()` sets the count
to `c - 1`; if `c > 1` no register changes; if `c = 1` the controller enable
bit and the clock-gate bit are cleared and no other register bit changes.  In
both cases the mode and masks, the pin-mux and pin-mode state and the
chip-select state are unchanged.  (`SPI_DISABLE` has no bit of `SPI_ENABLE`;
within a register `disable_val` is the complement of `enable_val`; the two
registers hold register-width values; and either `SPI_DISABLE` is the
complement of `SPI_ENABLE` or `SPIEN` holds no bit outside `SPI_ENABLE`.) -/
theorem end_referenced (cfg : Config) (hDE : cfg.SPI_DISABLE &&& cfg.SPI_ENABLE = 0)
    (hV : cfg.GateMaskExact) (s : SPIClass)
    (hpos : 0 < s.initialized) (hS : s.SPIEN < 2 ^ cfg.regBits)
    (hK : s.PERIPH_CLK_GATE_CTRL < 2 ^ cfg.regBits)
    (hkeep : trunc cfg.regBits cfg.SPI_DISABLE = complement cfg.regBits cfg.SPI_ENABLE ∨
      s.SPIEN &&& cfg.SPI_ENABLE = s.SPIEN) :
    ((s.end_ cfg).initialized = s.initialized - 1 ∧ (s.end_ cfg).initialized < s.initialized) ∧
    (1 < s.initialized →
      (s.end_ cfg).SPIEN = s.SPIEN ∧
      (s.end_ cfg).PERIPH_CLK_GATE_CTRL = s.PERIPH_CLK_GATE_CTRL) ∧
    (s.initialized = 1 →
      ¬ (s.end_ cfg).enabled cfg ∧
      (s.end_ cfg).PERIPH_CLK_GATE_CTRL &&& cfg.enable_val = 0 ∧
      (∀ i, cfg.SPI_ENABLE.testBit i = false →
        (s.end_ cfg).SPIEN.testBit i = s.SPIEN.testBit i) ∧
      (∀ i, cfg.enable_val.testBit i = false →
        (s.end_ cfg).PERIPH_CLK_GATE_CTRL.testBit i = s.PERIPH_CLK_GATE_CTRL.testBit i)) ∧
    ((s.end_ cfg).CTRL0 = s.CTRL0 ∧ (s.end_ cfg).SER = s.SER ∧
      (s.end_ cfg).BAUDR = s.BAUDR ∧ (s.end_ cfg).IMR = s.IMR) ∧
    ((s.end_ cfg).interruptMode = s.interruptMode ∧
      (s.end_ cfg).interruptMask0 = s.interruptMask0 ∧
      (s.end_ cfg).interruptMask1 = s.interruptMask1 ∧
      (s.end_ cfg).interruptMask2 = s.interruptMask2) ∧
    ((s.end_ cfg).muxMOSI = s.muxMOSI ∧ (s.end_ cfg).muxMISO = s.muxMISO ∧
      (s.end_ cfg).muxSCK = s.muxSCK ∧ (s.end_ cfg).pinModeMOSI = s.pinModeMOSI ∧
      (s.end_ cfg).pinModeMISO = s.pinModeMISO ∧ (s.end_ cfg).pinModeSCK = s.pinModeSCK) ∧
    ((s.end_ cfg).ssLevel = s.ssLevel ∧ (s.end_ cfg).ssMode = s.ssMode) := by
  have hcnt := end_initialized cfg s
  refine ⟨⟨hcnt, by omega⟩, ?_, ?_, ?_, ?_, ?_, ?_⟩
  · intro h2
    rw [end_of_two_le cfg s (by omega)]
    exact ⟨rfl, rfl⟩
  · intro h1
    unfold SPIClass.enabled
    rw [end_of_one cfg s h1]
    refine ⟨?_, and_exact_clears hV _, ?_, ?_⟩
    · simp [and_disjoint_clears hDE]
    · intro i hi
      rcases hkeep with hx | hsub
      · exact and_exact_keeps hx hS i hi
      · show (trunc cfg.regBits (s.SPIEN &&& cfg.SPI_DISABLE)).testBit i = s.SPIEN.testBit i
        rw [testBit_trunc, Nat.testBit_and, testBit_of_and_eq hsub i hi]
        simp
    · intro i hi
      exact and_exact_keeps hV hK i hi
  · rw [end_frame]
    exact ⟨rfl, rfl, rfl, rfl⟩
  · rw [end_frame]
    exact ⟨rfl, rfl, rfl, rfl⟩
  · rw [end_frame]
    exact ⟨rfl, rfl, rfl, rfl, rfl, rfl⟩
  · rw [end_frame]
    exact ⟨rfl, rfl⟩

theorem end_referenced_witness :
    sampleConfig.GateMaskExact ∧
    (run sampleConfig constructed [.begin, .usingInterrupt 3]).initialized = 1 ∧
    ((run sampleConfig constructed [.begin, .usingInterrupt 3]).end_ sampleConfig).initialized
      = 0 ∧
    ¬ ((run sampleConfig constructed [.begin, .usingInterrupt 3]).end_ sampleConfig).enabled
      sampleConfig ∧
    ((run sampleConfig constructed [.begin, .usingInterrupt 3]).end_ sampleConfig).interruptMask0
      = 8 :=
  have h := end_referenced sampleConfig (by decide) (by decide)
    (run sampleConfig constructed [.begin, .usingInterrupt 3]) (by decide) (by decide)
    (by decide) (Or.inr (by decide))
  ⟨by decide, by decide, h.1.1.trans (by decide), (h.2.2.1 (by decide)).1,
    h.2.2.2.2.1.2.1.trans (by decide)⟩

/-- With `SPI_DISABLE = 0` (as in `sampleConfig`) the teardown write clears the
whole of `SPIEN`: from the value 3 with one reference held, `end()` leaves 0,
so bit 1 is lost.  This is why the statement about `end()` at count 1 assumes
something about `SPI_DISABLE` or about the other bits of `SPIEN`. -/
theorem end_of_one_clears_all_when_mask_zero :
    ({ constructed with initialized := 1, SPIEN := 3 } : SPIClass).initialized = 1 ∧
    (({ constructed with initialized := 1, SPIEN := 3 } : SPIClass).end_ sampleConfig).SPIEN
      = 0 := by
  decide

/-! ## Registering and removing a classified pin -/

theorem set_bit_of_lt {w m b : Nat} (hm : m < 2 ^ w) (hb : b < w) :
    trunc w (m ||| 2 ^ b) = m ||| 2 ^ b := by
  apply trunc_of_lt
  exact Nat.or_lt_two_pow hm (Nat.pow_lt_pow_right (by decide) hb)

theorem clear_bit_of_lt {w m : Nat} (hm : m < 2 ^ w) (c : Nat) :
    trunc w (m &&& c) = m &&& c := by
  apply trunc_of_lt
  exact Nat.lt_of_le_of_lt Nat.and_le_left hm

theorem testBit_set_bit (m b i : Nat) :
    (m ||| 2 ^ b).testBit i = (m.testBit i || decide (b = i)) := by
  rw [Nat.testBit_or, Nat.testBit_two_pow]

theorem testBit_clear_bit {w m : Nat} (hm : m < 2 ^ w) (b i : Nat) :
    (m &&& complement w (2 ^ b)).testBit i = (m.testBit i && !decide (b = i)) := by
  rw [Nat.testBit_and, testBit_complement, Nat.testBit_two_pow]
  cases hmi : m.testBit i
  · simp
  · have := lt_of_testBit hm hmi
    simp [this]

/-- C15: for every tracker state with mode other than 8 and every in-range pin
classified into group `g` with bit index `b` below the mask width, after
`usingInterrupt(pin)`: `interruptMask[g]` is its old value with bit `b` set,
the mode is its old value with bit `g` set and stays below 8, and the two other
masks are unchanged.  (The mode is in its range 0..8, as in every state the
driver reaches, and the old mask fits the mask width.) -/
theorem usingInterrupt_registers (cfg : Config) (s : SPIClass) (pin g : Nat)
    (hne : s.interruptMode ≠ 8) (hrange : s.interruptMode ≤ 8)
    (hkw : s.interruptMask g < 2 ^ cfg.maskBits)
    (hr : pin < cfg.NUM_DIGITAL_PINS) (hg : pinGroup cfg pin = some g)
    (hb : pinBit cfg pin < cfg.maskBits) :
    (s.usingInterrupt cfg pin).interruptMask g = s.interruptMask g ||| 2 ^ pinBit cfg pin ∧
    (∀ i, ((s.usingInterrupt cfg pin).interruptMask g).testBit i
      = ((s.interruptMask g).testBit i || decide (pinBit cfg pin = i))) ∧
    (s.usingInterrupt cfg pin).interruptMode = s.interruptMode ||| 2 ^ g ∧
    (∀ i, (s.usingInterrupt cfg pin).interruptMode.testBit i
      = (s.interruptMode.testBit i || decide (g = i))) ∧
    (s.usingInterrupt cfg pin).interruptMode < 8 ∧
    (∀ i, i < 3 → i ≠ g → (s.usingInterrupt cfg pin).interruptMask i = s.interruptMask i) := by
  have hm : s.interruptMode < 8 := by omega
  obtain ⟨umode, umask, uother⟩ := usingInterrupt_hit cfg s pin g hm hr hg
  have hmask : (s.usingInterrupt cfg pin).interruptMask g
      = s.interruptMask g ||| 2 ^ pinBit cfg pin := by
    rw [umask]
    exact set_bit_of_lt hkw hb
  refine ⟨hmask, ?_, umode, ?_, ?_, uother⟩
  · intro i
    rw [hmask]
    exact testBit_set_bit _ _ i
  · intro i
    rw [umode]
    exact testBit_set_bit _ _ i
  · rw [umode]
    exact or_two_pow_lt_eight hm (pinGroup_lt hg)

theorem usingInterrupt_registers_witness :
    (run sampleConfig constructed [.begin, .usingInterrupt 3]).interruptMode ≠ 8 ∧
    (run sampleConfig constructed [.begin, .usingInterrupt 3]).interruptMode ≤ 8 ∧
    5 < sampleConfig.NUM_DIGITAL_PINS ∧ pinGroup sampleConfig 5 = some 1 ∧
    pinBit sampleConfig 5 = 2 ∧
    ((run sampleConfig constructed [.begin, .usingInterrupt 3]).usingInterrupt
      sampleConfig 5).interruptMask 1 = 4 ∧
    ((run sampleConfig constructed [.begin, .usingInterrupt 3]).usingInterrupt
      sampleConfig 5).interruptMode = 3 :=
  have h := usingInterrupt_registers sampleConfig
    (run sampleConfig constructed [.begin, .usingInterrupt 3]) 5 1
    (by decide) (by decide) (by decide) (by decide) (by decide) (by decide)
  ⟨by decide, by decide, by decide, by decide, by decide, h.1.trans (by decide),
    h.2.2.1.trans (by decide)⟩

/-- C16: for every tracker state with mode other than 8 and every in-range pin
classified into group `g` with bit index `b` (below the mask width or not),
after `notUsingInterrupt(pin)`: `interruptMask[g]` is its old value with bit
`b` cleared; bit `g` of the mode is cleared if that new mask is 0 and unchanged
otherwise; the two other masks and the other bits of the mode are unchanged.
(The old mask and mode fit their widths.) -/
theorem notUsingInterrupt_removes (cfg : Config) (s : SPIClass) (pin g : Nat)
    (hm : s.interruptMode ≠ 8) (hmw : s.interruptMode < 2 ^ cfg.modeBits)
    (hkw : s.interruptMask g < 2 ^ cfg.maskBits)
    (hr : pin < cfg.NUM_DIGITAL_PINS) (hg : pinGroup cfg pin = some g) :
    (s.notUsingInterrupt cfg pin).interruptMask g
      = s.interruptMask g &&& complement cfg.maskBits (2 ^ pinBit cfg pin) ∧
    (∀ i, ((s.notUsingInterrupt cfg pin).interruptMask g).testBit i
      = ((s.interruptMask g).testBit i && !decide (pinBit cfg pin = i))) ∧
    ((s.notUsingInterrupt cfg pin).interruptMask g = 0 →
      (s.notUsingInterrupt cfg pin).interruptMode.testBit g = false) ∧
    ((s.notUsingInterrupt cfg pin).interruptMask g ≠ 0 →
      (s.notUsingInterrupt cfg pin).interruptMode.testBit g = s.interruptMode.testBit g) ∧
    (∀ i, i ≠ g →
      (s.notUsingInterrupt cfg pin).interruptMode.testBit i = s.interruptMode.testBit i) ∧
    (∀ i, i < 3 → i ≠ g → (s.notUsingInterrupt cfg pin).interruptMask i = s.interruptMask i) := by
  obtain ⟨nmask, nmode, nother⟩ := notUsingInterrupt_hit cfg s pin g hm hr hg
  refine ⟨?_, ?_, ?_, ?_, ?_, nother⟩
  · rw [nmask, clear_bit_of_lt hkw]
  · intro i
    rw [nmask, clear_bit_of_lt hkw]
    exact testBit_clear_bit hkw _ i
  · intro hz
    rw [nmode, if_pos hz, testBit_clear_bit hmw]
    simp
  · intro hz
    rw [nmode, if_neg hz]
  · intro i hi
    rw [nmode]
    split_ifs
    · rw [testBit_clear_bit hmw]
      have : ¬ g = i := fun h => hi h.symm
      simp [this]
    · rfl

theorem notUsingInterrupt_removes_witness :
    (run sampleConfig constructed [.begin, .usingInterrupt 3, .usingInterrupt 5]).interruptMode
      = 3 ∧
    3 < sampleConfig.NUM_DIGITAL_PINS ∧ pinGroup sampleConfig 3 = some 0 ∧
    ((run sampleConfig constructed [.begin, .usingInterrupt 3, .usingInterrupt 5]
      ).notUsingInterrupt sampleConfig 3).interruptMask 0 = 0 ∧
    ((run sampleConfig constructed [.begin, .usingInterrupt 3, .usingInterrupt 5]
      ).notUsingInterrupt sampleConfig 3).interruptMode.testBit 0 = false ∧
    ((run sampleConfig constructed [.begin, .usingInterrupt 3, .usingInterrupt 5]
      ).notUsingInterrupt sampleConfig 3).interruptMode.testBit 1 = true :=
  have h := notUsingInterrupt_removes sampleConfig
    (run sampleConfig constructed [.begin, .usingInterrupt 3, .usingInterrupt 5]) 3 0
    (by decide) (by decide) (by decide) (by decide) (by decide)
  ⟨by decide, by decide, by decide, by decide, h.2.2.1 (by decide),
    (h.2.2.2.2.1 1 (by decide)).trans (by decide)⟩

/-! ## Idempotence of registration -/

theorem trunc_set_idem (w m b : Nat) :
    trunc w (trunc w (m ||| 2 ^ b) ||| 2 ^ b) = trunc w (m ||| 2 ^ b) := by
  apply Nat.eq_of_testBit_eq
  intro i
  simp only [testBit_trunc, Nat.testBit_or]
  cases decide (i < w) <;> cases m.testBit i <;> cases (2 ^ b).testBit i <;> rfl

theorem set_idem (m g : Nat) : m ||| 2 ^ g ||| 2 ^ g = m ||| 2 ^ g := by
  rw [Nat.lor_assoc, Nat.or_self]

theorem usingInterrupt_fixed_of_proj (cfg : Config) (t : SPIClass) (n : Nat)
    (hm : (t.usingInterrupt cfg n).interruptMode = t.interruptMode)
    (hk : ∀ i, i < 3 → (t.usingInterrupt cfg n).interruptMask i = t.interruptMask i) :
    t.usingInterrupt cfg n = t := by
  rw [usingInterrupt_frame]
  have h0 : (t.usingInterrupt cfg n).interruptMask0 = t.interruptMask0 := hk 0 (by decide)
  have h1 : (t.usingInterrupt cfg n).interruptMask1 = t.interruptMask1 := hk 1 (by decide)
  have h2 : (t.usingInterrupt cfg n).interruptMask2 = t.interruptMask2 := hk 2 (by decide)
  rw [hm, h0, h1, h2]

/-- C17: `usingInterrupt` is idempotent: for every state and every pin number,
calling `usingInterrupt(pin)` twice gives the same state (mode, the three masks
and everything else) as calling it once. -/
theorem usingInterrupt_idempotent (cfg : Config) (s : SPIClass) (pin : Nat) :
    (s.usingInterrupt cfg pin).usingInterrupt cfg pin = s.usingInterrupt cfg pin := by
  by_cases hlt : s.interruptMode < 8
  · by_cases hr : pin < cfg.NUM_DIGITAL_PINS
    · cases hg : pinGroup cfg pin with
      | none =>
        rw [usingInterrupt_miss cfg s pin hlt (Or.inr hg)]
        exact usingInterrupt_overflow cfg _ pin (Nat.lt_irrefl 8)
      | some g =>
        obtain ⟨umode, umask, uother⟩ := usingInterrupt_hit cfg s pin g hlt hr hg
        have hlt2 : (s.usingInterrupt cfg pin).interruptMode < 8 := by
          rw [umode]
          exact or_two_pow_lt_eight hlt (pinGroup_lt hg)
        obtain ⟨vmode, vmask, vother⟩ :=
          usingInterrupt_hit cfg (s.usingInterrupt cfg pin) pin g hlt2 hr hg
        apply usingInterrupt_fixed_of_proj
        · rw [vmode, umode]
          exact set_idem _ _
        · intro i hi
          by_cases hig : i = g
          · subst hig
            rw [vmask, umask]
            exact trunc_set_idem _ _ _
          · exact vother i hi hig
    · rw [usingInterrupt_miss cfg s pin hlt (Or.inl (by omega))]
      exact usingInterrupt_overflow cfg _ pin (Nat.lt_irrefl 8)
  · rw [usingInterrupt_overflow cfg s pin hlt]
    exact usingInterrupt_overflow cfg s pin hlt

/-! ## The mode field of `CTRL0` -/

/-- C18: for every value `v` and every prior `CTRL0`, after `setDataMode(v)`
the bits of `CTRL0` inside `SPI_MODE_MASK` equal
`(v << SPI_MODE_SHIFT) & SPI_MODE_MASK`, whatever mode was programmed before,
and the controller enable bit is set.  (`SPI_MODE_MASK` fits a register.) -/
theorem setDataMode_field (cfg : Config) (hE : cfg.EnableBit)
    (hM : cfg.SPI_MODE_MASK < 2 ^ cfg.regBits) (s : SPIClass) (v : Nat) :
    (s.setDataMode cfg v).CTRL0 &&& cfg.SPI_MODE_MASK
      = (v <<< cfg.SPI_MODE_SHIFT) &&& cfg.SPI_MODE_MASK ∧
    (s.setDataMode cfg v).enabled cfg := by
  refine ⟨?_, setDataMode_enabled hE s v⟩
  rw [setDataMode_CTRL0]
  apply Nat.eq_of_testBit_eq
  intro i
  simp only [Nat.testBit_and, testBit_trunc, Nat.testBit_or, testBit_complement]
  cases hb : cfg.SPI_MODE_MASK.testBit i
  · simp
  · have := lt_of_testBit hM hb
    simp [this]

theorem setDataMode_field_witness :
    sampleConfig.EnableBit ∧ sampleConfig.SPI_MODE_MASK < 2 ^ sampleConfig.regBits ∧
    (({ constructed with CTRL0 := 0xFF } : SPIClass).setDataMode sampleConfig 0xFD).CTRL0
      &&& sampleConfig.SPI_MODE_MASK = 0x40 ∧
    (({ constructed with CTRL0 := 0xFF } : SPIClass).setDataMode sampleConfig 0xFD).enabled
      sampleConfig :=
  have h := setDataMode_field sampleConfig (by decide) (by decide)
    ({ constructed with CTRL0 := 0xFF } : SPIClass) 0xFD
  ⟨by decide, by decide, h.1.trans (by decide), h.2⟩

/-! ## The range of the mode -/

theorem step_mode_le (cfg : Config) (s : SPIClass) (op : Op) (h : s.interruptMode ≤ 8) :
    (step cfg s op).interruptMode ≤ 8 := by
  cases op with
  | begin =>
    show (s.begin cfg).interruptMode ≤ 8
    by_cases h0 : s.initialized = 0
    · rw [begin_of_zero cfg s h0]
      exact Nat.zero_le 8
    · rw [begin_of_pos cfg s h0]
      exact h
  | end_ =>
    show (s.end_ cfg).interruptMode ≤ 8
    rw [end_interruptMode]
    exact h
  | setClockDivider v => exact h
  | setDataMode v => exact h
  | usingInterrupt n =>
    show (s.usingInterrupt cfg n).interruptMode ≤ 8
    by_cases hlt : s.interruptMode < 8
    · by_cases hr : n < cfg.NUM_DIGITAL_PINS
      · cases hg : pinGroup cfg n with
        | none =>
          rw [usingInterrupt_miss cfg s n hlt (Or.inr hg)]
        | some g =>
          rw [(usingInterrupt_hit cfg s n g hlt hr hg).1]
          exact Nat.le_of_lt (or_two_pow_lt_eight hlt (pinGroup_lt hg))
      · rw [usingInterrupt_miss cfg s n hlt (Or.inl (by omega))]
    · rw [usingInterrupt_overflow cfg s n hlt]
      exact h
  | notUsingInterrupt n =>
    show (s.notUsingInterrupt cfg n).interruptMode ≤ 8
    by_cases h8 : s.interruptMode = 8
    · rw [notUsingInterrupt_overflow cfg s n h8]
      exact h
    · by_cases hr : n < cfg.NUM_DIGITAL_PINS
      · cases hg : pinGroup cfg n with
        | none =>
          rw [notUsingInterrupt_miss cfg s n (Or.inr hg)]
          exact h
        | some g =>
          rw [(notUsingInterrupt_hit cfg s n g h8 hr hg).2.1]
          split_ifs
          · exact Nat.le_trans Nat.and_le_left h
          · exact h
      · rw [notUsingInterrupt_miss cfg s n (Or.inl (by omega))]
        exact h

/-- C20: in every state reached from a state with mode at most 8 by any
sequence of public operations (in particular of `begin`, `end`,
`usingInterrupt` and `notUsingInterrupt`), the mode is 8 or a value in 0..7;
hence the guard `interruptMode < 8` of `usingInterrupt` is false exactly when
the guard `interruptMode == 8` of `notUsingInterrupt` is true. -/
theorem mode_range (cfg : Config) (s0 : SPIClass) (h : s0.interruptMode ≤ 8) (ops : List Op) :
    ((run cfg s0 ops).interruptMode = 8 ∨ (run cfg s0 ops).interruptMode ≤ 7) ∧
    (¬ (run cfg s0 ops).interruptMode < 8 ↔ (run cfg s0 ops).interruptMode = 8) := by
  have hle : (run cfg s0 ops).interruptMode ≤ 8 := by
    induction ops generalizing s0 with
    | nil => exact h
    | cons op ops ih =>
      rw [run_cons]
      exact ih _ (step_mode_le cfg s0 op h)
  constructor
  · omega
  · omega

theorem mode_range_witness :
    constructed.interruptMode ≤ 8 ∧
    ((run sampleConfig constructed
        [.begin, .usingInterrupt 3, .usingInterrupt 9, .notUsingInterrupt 3, .end_]
      ).interruptMode = 8 ∨
    (run sampleConfig constructed
        [.begin, .usingInterrupt 3, .usingInterrupt 9, .notUsingInterrupt 3, .end_]
      ).interruptMode ≤ 7) :=
  ⟨by decide, (mode_range sampleConfig constructed (by decide) _).1⟩

end SPI
